import Mathlib

/-!
# rocALUTION client drivers: a shallow embedding

The repository sources under study are the client drivers
`clients/include/testing_bicgstabl.hpp`,
`clients/include/testing_ruge_stueben_amg.hpp` and
`clients/samples/sa-amg.cpp`.  Each driver is embedded as a function that
threads the driver's local variables through the library calls in program
order and records every library call in a trace.  The numeric kernels of the
library (matrix generator, sparse product, Krylov iteration, norm) are not
part of these sources and enter as the fields of `Kernels`.
-/

namespace Rocalution

/-! ## Values -/

/-- A floating-point number as a driver sees it: finite (an exact rational),
an infinity, or not-a-number. -/
inductive Flt where
  | fin (q : ℚ)
  | pinf
  | ninf
  | nan
  deriving DecidableEq

/-- The comparison `res < c` of IEEE arithmetic against a finite constant. -/
def Flt.ltConst (res : Flt) (c : ℚ) : Bool :=
  match res with
  | .fin q => decide (q < c)
  | .ninf => true
  | .pinf => false
  | .nan => false

/-- The two instantiations of the template parameter `T` of the drivers. -/
inductive ValueType where
  | float
  | double
  deriving DecidableEq

/-- The literal `1e-2f`: the single-precision number nearest to 0.01. -/
def lit_1e_2f : ℚ := 5368709 / 536870912

/-- The literal `1e-5`: the double-precision number nearest to 0.00001. -/
def lit_1e_5 : ℚ := 5902958103587057 / 590295810358705651712

/-- The overload `static bool check_residual(float res)`, which returns
`res < 1e-2f`. -/
def check_residual_float (res : Flt) : Bool := res.ltConst lit_1e_2f

/-- The overload `static bool check_residual(double res)`, which returns
`res < 1e-5`. -/
def check_residual_double (res : Flt) : Bool := res.ltConst lit_1e_5

/-- Overload resolution of `check_residual(nrm2)` for `T nrm2`. -/
def check_residual (vt : ValueType) (res : Flt) : Bool :=
  match vt with
  | .float => check_residual_float res
  | .double => check_residual_double res

/-! ## Driver arguments -/

/-- The fields of `Arguments` (declared in `utility.hpp`) that the drivers read. -/
structure Arguments where
  size : Int
  index : Int
  pre_smooth : Int
  post_smooth : Int
  cycle : Int
  ordering : Int
  format : Nat
  precond : String
  smoother : String
  rebuildnumeric : Bool

/-! ## Operators and vectors -/

/-- The three raw arrays of a CSR matrix. -/
structure CSRArrays (T : Type) where
  row_offset : List Int
  col : List Int
  val : List T

/-- A `LocalMatrix<T>`: counts, format tag, residency and the owned payload
(`none` while the operator is empty). -/
structure LocalMatrix (T : Type) where
  format : Nat
  blockdim : Int
  accel : Bool
  nrow : Int
  ncol : Int
  nnz : Int
  name : String
  payload : Option (CSRArrays T)

/-- A `LocalVector<T>`: residency and the value buffer (`[]` while empty). -/
structure LocalVector (T : Type) where
  accel : Bool
  name : String
  data : List T

/-- A freshly constructed `LocalMatrix<T> A;`: empty, on the host, tagged with
the format `csr` (the enumerator `CSR`). -/
def LocalMatrix.new (T : Type) (csr : Nat) : LocalMatrix T :=
  { format := csr, blockdim := 1, accel := false, nrow := 0, ncol := 0, nnz := 0,
    name := "", payload := none }

/-- A freshly constructed `LocalVector<T> x;`: empty, on the host. -/
def LocalVector.new (T : Type) : LocalVector T :=
  { accel := false, name := "", data := [] }

/-- The accessor `A.GetM()`: the row count. -/
def LocalMatrix.GetM {T : Type} (A : LocalMatrix T) : Int := A.nrow

/-- The accessor `A.GetN()`: the column count. -/
def LocalMatrix.GetN {T : Type} (A : LocalMatrix T) : Int := A.ncol

/-- The accessor `A.GetNnz()`: the number of stored entries. -/
def LocalMatrix.GetNnz {T : Type} (A : LocalMatrix T) : Int := A.nnz

/-- Whether the operator holds a payload. -/
def LocalMatrix.nonEmpty {T : Type} (A : LocalMatrix T) : Bool := A.payload.isSome

/-- The accessor `v.GetSize()`. -/
def LocalVector.GetSize {T : Type} (v : LocalVector T) : Int := v.data.length

/-- Modelled from the spec: `SetDataPtrCSR` (body not in the sources) adopts
the caller's three arrays as the operator's payload, records the counts, and
nulls the caller's handles ("SetDataPtr transfers ownership of externally
supplied arrays into the Operator (nullifying the caller's handles)").  An
adoption needs all three arrays; with a null handle nothing is adopted.
The operator is then in the format `csr` (the enumerator `CSR`). -/
def LocalMatrix.SetDataPtrCSR {T : Type} (A : LocalMatrix T) (csr : Nat)
    (row_offset col : Option (List Int)) (val : Option (List T))
    (name : String) (nnz nrow ncol : Int) :
    LocalMatrix T × Option (List Int) × Option (List Int) × Option (List T) :=
  match row_offset, col, val with
  | some r, some c, some v =>
      ({ A with format := csr, blockdim := 1, nrow := nrow, ncol := ncol, nnz := nnz,
                name := name,
                payload := some { row_offset := r, col := c, val := v } },
        none, none, none)
  | _, _, _ => (A, none, none, none)

/-- Modelled from the spec: `ConvertTo(format[, extra])` (body not in the
sources) re-tags the storage format, "preserving all entries and counts". -/
def LocalMatrix.ConvertTo {T : Type} (A : LocalMatrix T) (format : Nat)
    (blockdim : Int) : LocalMatrix T :=
  { A with format := format, blockdim := blockdim }

/-- Modelled from the spec: `MoveToAccelerator()` changes residency only and
may be called on an empty operator. -/
def LocalMatrix.MoveToAccelerator {T : Type} (A : LocalMatrix T) : LocalMatrix T :=
  { A with accel := true }

/-- Modelled from the spec: `MoveToAccelerator()` changes residency only and
may be called on an empty vector. -/
def LocalVector.MoveToAccelerator {T : Type} (v : LocalVector T) : LocalVector T :=
  { v with accel := true }

/-- Modelled from the spec: `Allocate(name, n)` gives the vector a buffer of
length `n`, filled with `zero`, keeping its residency. -/
def LocalVector.Allocate {T : Type} (v : LocalVector T) (zero : T) (name : String)
    (n : Int) : LocalVector T :=
  { v with name := name, data := List.replicate n.toNat zero }

/-- The call `v.Ones()`: every entry becomes `one`, the length stays. -/
def LocalVector.Ones {T : Type} (v : LocalVector T) (one : T) : LocalVector T :=
  { v with data := List.replicate v.data.length one }

/-- Modelled from the spec: `UpdateValuesCSR(val)` "replaces only the numeric
values of a matrix whose sparsity pattern is unchanged": the first `nnz`
entries of `val` become the stored values. -/
def LocalMatrix.UpdateValuesCSR {T : Type} (A : LocalMatrix T) (val : List T) :
    LocalMatrix T :=
  match A.payload with
  | none => A
  | some p => { A with payload := some { p with val := val.take A.nnz.toNat } }

/-! ## Library kernels and the call trace -/

/-- The preconditioner classes a driver can instantiate. -/
inductive PrecondKind where
  | AIChebyshev | FSAI | SPAI | TNS | Jacobi | GS | SGS | ILU | ILUT | IC
  | MultiColoredGS | MultiColoredSGS | MultiColoredILU
  deriving DecidableEq

/-- What `gen_2d_laplacian(ndim, &csr_ptr, &csr_col, &csr_val)` hands back:
the returned row count and the three arrays it allocates.  The drivers read
`csr_ptr[nrow]` right after the call and then `csr_val[0 .. nnz-1]`;
`readable` and `nnz_val` are the generator's guarantee that these reads stay
inside the arrays (the last row offset of a CSR triple is its value count). -/
structure GenResult (T : Type) where
  nrow : Nat
  row_offset : List Int
  col : List Int
  val : List T
  readable : nrow < row_offset.length
  nnz_val : row_offset.get ⟨nrow, readable⟩ = (val.length : Int)

/-- What `mat.ReadFileMTX(path)` leaves in the operator: the counts and the
entries held by the file. -/
structure MtxFile (T : Type) where
  nrow : Nat
  ncol : Nat
  nnz : Nat
  csr : CSRArrays T

/-- Everything that fixes the result of a solve by the outer BiCGStab with a
Ruge-Stueben AMG preconditioner, besides operator, right-hand side and guess. -/
structure AMGSetup where
  levels : Int
  cycle : Int
  scaling : Bool
  smoother : String
  pre_iter : Int
  post_iter : Int
  format : Nat

/-- The numeric kernels of the library and of `utility.hpp`, and the two
enumerators `CSR` and `BCSR` of the format enumeration, none of which is part
of the sources: they are parameters of every driver. -/
structure Kernels (T : Type) where
  zero : T
  one : T
  CSR : Nat
  BCSR : Nat
  gen_2d_laplacian : Int → GenResult T
  spmv : LocalMatrix T → List T → List T
  SetRandomUniform : Nat → List T
  ScaleAdd : List T → Int → List T → List T
  Norm : List T → Flt
  GetNumLevels : LocalMatrix T → Int → Bool → Int
  BiCGStabl_Solve : LocalMatrix T → Option PrecondKind → Int → List T → List T → List T
  AMG_Solve : LocalMatrix T → Option (CSRArrays T) → AMGSetup → List T → List T → List T
  ReadFileMTX : String → MtxFile T
  SAAMG_GetNumLevels : LocalMatrix T → Int

/-- The objects a driver declares or allocates. -/
inductive Obj where
  | platform | A | mat | x | b | b2 | e | rhs | ls | p | cgs | ils | sol
  | sm (i : Nat)
  | smooth (i : Nat)
  | sm_array
  | smooth_array
  | csr_val2
  deriving DecidableEq

/-- One library call (or allocation, release, assertion) made by a driver.
`Apply` records the operator's counts and the two vector lengths at the call;
`assert` records whether the asserted condition held. -/
inductive Event where
  | set_device_rocalution
  | init_rocalution
  | stop_rocalution
  | gen_2d_laplacian (ndim : Int)
  | ReadFileMTX
  | SetDataPtrCSR (nnz nrow ncol : Int)
  | assert (ok : Bool)
  | ConvertTo (format : Nat) (blockdim : Int)
  | MoveToAccelerator (o : Obj)
  | Allocate (o : Obj) (n : Int)
  | Ones (o : Obj)
  | Zeros (o : Obj)
  | Apply (m n : Int) (nonEmpty : Bool) (inp : Obj) (inLen : Int) (out : Obj) (outLen : Int)
  | SetRandomUniform (o : Obj)
  | UpdateValuesCSR
  | Gershgorin
  | new (o : Obj)
  | new_array (o : Obj) (n : Int)
  | delete (o : Obj)
  | delete_array (o : Obj)
  | config (o : Obj) (method : String)
  | SetOperator (solver : Obj)
  | SetPreconditioner (solver precond : Obj)
  | Init (solver : Obj)
  | BuildHierarchy (solver : Obj)
  | GetNumLevels (solver : Obj) (levels : Int)
  | SetSmoother (solver : Obj) (n : Int)
  | SetSolver (solver coarse : Obj)
  | Build (solver : Obj)
  | ReBuildNumeric (solver : Obj)
  | Solve (solver : Obj) (rhsVec : Obj)
  | ScaleAdd (o : Obj)
  | Norm (o : Obj)
  | Clear (solver : Obj)
  deriving DecidableEq

/-- How a run of a driver ends.  `null_dereference` ends a run whose last
recorded call was made through a null pointer; `invalid_read` ends a run that
read an entry of `argv` that is not there. -/
inductive Outcome where
  | returned (success : Bool)
  | assert_failed
  | bad_array_new_length
  | exit (code : Int)
  | main_returned (code : Int)
  | null_dereference
  | invalid_read
  deriving DecidableEq

/-- A run of a driver: the calls it made, in order, and how it ended. -/
structure Run where
  trace : List Event
  outcome : Outcome

/-- The call `A.Apply(in, &out)`: the product lands in `out`. -/
def LocalMatrix.Apply {T : Type} (K : Kernels T) (A : LocalMatrix T)
    (inp out : LocalVector T) : LocalVector T :=
  { out with data := K.spmv A inp.data }

/-- The trace entry of `A.Apply(in, &out)` in the state of the call. -/
def Event.ofApply {T : Type} (A : LocalMatrix T) (i : Obj) (inp : LocalVector T)
    (o : Obj) (out : LocalVector T) : Event :=
  .Apply A.GetM A.GetN A.nonEmpty i inp.GetSize o out.GetSize

/-! ## testing_bicgstabl.hpp -/

/-- Locals of `testing_bicgstabl` after line 71. -/
structure BicgstablSetup (T : Type) where
  A : LocalMatrix T
  x : LocalVector T
  b : LocalVector T
  e : LocalVector T
  csr_ptr : Option (List Int)
  csr_col : Option (List Int)
  csr_val : Option (List T)
  trace : List Event

/-- Lines 33-71 of `testing_bicgstabl`: platform start, generation and
adoption of A, allocation of x, b, e, `b = A * 1`, random initial guess. -/
def testing_bicgstabl_setup {T : Type} (K : Kernels T) (argus : Arguments) :
    BicgstablSetup T :=
  let ndim := argus.size
  let format := argus.format
  let A := LocalMatrix.new T K.CSR
  let x := LocalVector.new T
  let b := LocalVector.new T
  let e := LocalVector.new T
  let A := A.ConvertTo format 1
  let g := K.gen_2d_laplacian ndim
  let nrow : Int := g.nrow
  let nnz := g.row_offset.get ⟨g.nrow, g.readable⟩
  let r := A.SetDataPtrCSR K.CSR (some g.row_offset) (some g.col) (some g.val) "A" nnz nrow nrow
  let A := r.1
  let A := A.MoveToAccelerator
  let x := x.MoveToAccelerator
  let b := b.MoveToAccelerator
  let e := e.MoveToAccelerator
  let x := x.Allocate K.zero "x" A.GetN
  let b := b.Allocate K.zero "b" A.GetM
  let e := e.Allocate K.zero "e" A.GetN
  let e := e.Ones K.one
  let b1 := A.Apply K e b
  let x1 := { x with data := K.SetRandomUniform x.data.length }
  { A := A, x := x1, b := b1, e := e
    csr_ptr := r.2.1, csr_col := r.2.2.1, csr_val := r.2.2.2
    trace :=
      [ .init_rocalution, .ConvertTo format 1, .gen_2d_laplacian ndim,
        .SetDataPtrCSR nnz nrow nrow,
        .MoveToAccelerator .A, .MoveToAccelerator .x, .MoveToAccelerator .b,
        .MoveToAccelerator .e,
        .Allocate .x A.GetN, .Allocate .b A.GetM, .Allocate .e A.GetN,
        .Ones .e, Event.ofApply A .e e .b b, .SetRandomUniform .x ] }

/-- Lines 76-107 of `testing_bicgstabl`: the chain of string comparisons that
picks the preconditioner.  The outer `none` is the final `else return false;`,
`some none` is `p = NULL`, `some (some k)` is `p = new k`. -/
def testing_bicgstabl_precond (precond : String) : Option (Option PrecondKind) :=
  if precond = "None" then some none
  else if precond = "Chebyshev" then some (some .AIChebyshev)
  else if precond = "FSAI" then some (some .FSAI)
  else if precond = "SPAI" then some (some .SPAI)
  else if precond = "TNS" then some (some .TNS)
  else if precond = "Jacobi" then some (some .Jacobi)
  else if precond = "GS" then some (some .GS)
  else if precond = "SGS" then some (some .SGS)
  else if precond = "ILU" then some (some .ILU)
  else if precond = "ILUT" then some (some .ILUT)
  else if precond = "IC" then some (some .IC)
  else if precond = "MCGS" then some (some .MultiColoredGS)
  else if precond = "MCSGS" then some (some .MultiColoredSGS)
  else if precond = "MCILU" then some (some .MultiColoredILU)
  else none

/-- Calls made while the preconditioner is created (lines 79-106). -/
def testing_bicgstabl_precond_trace (p : Option PrecondKind) : List Event :=
  match p with
  | none => []
  | some .AIChebyshev => [.Gershgorin, .new .p, .config .p "Set"]
  | some _ => [.new .p]

/-- The driver `template <typename T> bool testing_bicgstabl(Arguments argus)`. -/
def testing_bicgstabl {T : Type} (K : Kernels T) (vt : ValueType) (argus : Arguments) :
    Run :=
  let precond := argus.precond
  let l := argus.index
  let s := testing_bicgstabl_setup K argus
  match testing_bicgstabl_precond precond with
  | none => { trace := s.trace, outcome := .returned false }
  | some p =>
    let x := { s.x with data := K.BiCGStabl_Solve s.A p l s.b.data s.x.data }
    let x := { x with data := K.ScaleAdd x.data (-1) s.e.data }
    let nrm2 := K.Norm x.data
    let success := check_residual vt nrm2
    { trace :=
        s.trace ++ testing_bicgstabl_precond_trace p
          ++ [.config .ls "Verbose", .SetOperator .ls]
          ++ (if p.isSome then [.SetPreconditioner .ls .p] else [])
          ++ [.Init .ls, .config .ls "SetOrder", .Build .ls, .Solve .ls .b,
              .ScaleAdd .x, .Norm .x, .Clear .ls]
          ++ (if p.isSome then [.delete .p] else [])
          ++ [.stop_rocalution],
      outcome := .returned success }

/-! ## testing_ruge_stueben_amg.hpp -/

/-- The loop of lines 79-82, `for(int i = 0; i < nnz; i++) csr_val2[i] = csr_val[i];`,
run on the fresh array `csr_val2`. -/
def copy_values {T : Type} (zero : T) (csr_val : List T) (nnz : Nat)
    (csr_val2 : List T) : List T :=
  (List.range nnz).foldl (fun dst i => dst.set i (csr_val.getD i zero)) csr_val2

/-- A run of consecutive `assert(cond)` statements: the trace entries, and
whether control passes them. -/
def assert_all : List Bool → List Event × Bool
  | [] => ([], true)
  | true :: cs => (.assert true :: (assert_all cs).1, (assert_all cs).2)
  | false :: _ => ([.assert false], false)

/-- Locals of `testing_ruge_stueben_amg` after line 85. -/
structure AmgAdopted (T : Type) where
  A : LocalMatrix T
  nnz : Int
  csr_ptr : Option (List Int)
  csr_col : Option (List Int)
  csr_val : Option (List T)
  csr_val2 : Option (List T)
  trace : List Event

/-- Lines 56-85 of `testing_ruge_stueben_amg`: platform start, generation of
A, the optional copy of its values into `csr_val2`, and `SetDataPtrCSR`. -/
def testing_ruge_stueben_amg_adopt {T : Type} (K : Kernels T) (argus : Arguments) :
    AmgAdopted T :=
  let ndim := argus.size
  let rebuildnumeric := argus.rebuildnumeric
  let A := LocalMatrix.new T K.CSR
  let g := K.gen_2d_laplacian ndim
  let nrow : Int := g.nrow
  let nnz := g.row_offset.get ⟨g.nrow, g.readable⟩
  let csr_val2 : Option (List T) :=
    if rebuildnumeric then
      some (copy_values K.zero g.val nnz.toNat (List.replicate nnz.toNat K.zero))
    else none
  let r := A.SetDataPtrCSR K.CSR (some g.row_offset) (some g.col) (some g.val) "A" nnz nrow nrow
  { A := r.1, nnz := nnz, csr_ptr := r.2.1, csr_col := r.2.2.1, csr_val := r.2.2.2
    csr_val2 := csr_val2
    trace :=
      [.set_device_rocalution, .init_rocalution, .gen_2d_laplacian ndim]
        ++ (if rebuildnumeric then [.new_array .csr_val2 nnz] else [])
        ++ [.SetDataPtrCSR nnz nrow nrow] }

/-- Locals of `testing_ruge_stueben_amg` after line 129. -/
structure AmgSetupState (T : Type) where
  A : LocalMatrix T
  x : LocalVector T
  b : LocalVector T
  b2 : LocalVector T
  e : LocalVector T
  levels : Int
  trace : List Event

/-- Lines 91-129 of `testing_ruge_stueben_amg`: residency, allocation of the
vectors, `b = A * 1`, the random guess, the AMG settings and `BuildHierarchy`. -/
def testing_ruge_stueben_amg_setup {T : Type} (K : Kernels T) (argus : Arguments)
    (A : LocalMatrix T) : AmgSetupState T :=
  let cycle := argus.cycle
  let scaling : Bool := decide (argus.ordering ≠ 0)
  let x := LocalVector.new T
  let b := LocalVector.new T
  let b2 := LocalVector.new T
  let e := LocalVector.new T
  let A := A.MoveToAccelerator
  let x := x.MoveToAccelerator
  let b := b.MoveToAccelerator
  let b2 := b2.MoveToAccelerator
  let e := e.MoveToAccelerator
  let x := x.Allocate K.zero "x" A.GetN
  let b := b.Allocate K.zero "b" A.GetM
  let b2 := b2.Allocate K.zero "b2" A.GetM
  let e := e.Allocate K.zero "e" A.GetN
  let e := e.Ones K.one
  let b1 := A.Apply K e b
  let x1 := { x with data := K.SetRandomUniform x.data.length }
  let levels := K.GetNumLevels A cycle scaling
  { A := A, x := x1, b := b1, b2 := b2, e := e, levels := levels
    trace :=
      [ .MoveToAccelerator .A, .MoveToAccelerator .x, .MoveToAccelerator .b,
        .MoveToAccelerator .b2, .MoveToAccelerator .e,
        .Allocate .x A.GetN, .Allocate .b A.GetM, .Allocate .b2 A.GetM,
        .Allocate .e A.GetN,
        .Ones .e, Event.ofApply A .e e .b b, .SetRandomUniform .x,
        .config .p "SetCoarseningStrategy", .config .p "SetInterpolationType",
        .config .p "SetCoarsestLevel", .config .p "SetCycle", .SetOperator .p,
        .config .p "SetManualSmoothers", .config .p "SetManualSolver",
        .config .p "SetScaling", .BuildHierarchy .p, .GetNumLevels .p levels ] }

/-- The loop of lines 142-163, `for(int i = 0; i < levels - 1; ++i)`, with
`n` iterations left to run from index `i`: the calls it makes, and whether it
left the function through `return false;` (line 159). -/
def testing_ruge_stueben_amg_smoothers (smoother : String) : Nat → Nat → List Event × Bool
  | 0, _ => ([], false)
  | n + 1, i =>
    if smoother = "Jacobi" then
      ([ .new (.sm i), .new (.smooth i), .config (.sm i) "SetRelaxation(0.67)",
         .SetPreconditioner (.sm i) (.smooth i), .config (.sm i) "Verbose" ]
          ++ (testing_ruge_stueben_amg_smoothers smoother n (i + 1)).1,
        (testing_ruge_stueben_amg_smoothers smoother n (i + 1)).2)
    else if smoother = "MCGS" then
      ([ .new (.sm i), .new (.smooth i), .config (.sm i) "SetRelaxation(1.3)",
         .SetPreconditioner (.sm i) (.smooth i), .config (.sm i) "Verbose" ]
          ++ (testing_ruge_stueben_amg_smoothers smoother n (i + 1)).1,
        (testing_ruge_stueben_amg_smoothers smoother n (i + 1)).2)
    else ([.new (.sm i)], true)

/-- A loop `for(int i = ...; ...; ++i) body` without early exit, with `n`
iterations left to run from index `i`: the calls of its iterations, in order. -/
def for_events (body : Nat → List Event) : Nat → Nat → List Event
  | 0, _ => []
  | n + 1, i => body i ++ for_events body n (i + 1)

/-- The loop of lines 208-212 (lines 209-213 of `sa-amg.cpp`):
`delete smooth[i]; delete sm[i];` for `n` iterations from index `i`. -/
def delete_smoothers (n i : Nat) : List Event :=
  for_events (fun i => [.delete (.smooth i), .delete (.sm i)]) n i

/-- The linear system handed to `ls.Solve`: the operator, the coefficients
the solver's numeric state was last computed from, and the right-hand side. -/
structure AmgSystem (T : Type) where
  A : LocalMatrix T
  built : Option (CSRArrays T)
  rhs : List T

/-- Lines 178-194 of `testing_ruge_stueben_amg`, the data flow from `Build`
to `Solve`.  `Build` and `ReBuildNumeric` both leave the solver's numeric
state computed from the coefficients A holds at the call (Modelled from the
spec: a numeric rebuild is "bit-for-bit equivalent to a full rebuild given the
same final coefficients"). -/
def testing_ruge_stueben_amg_system {T : Type} (K : Kernels T) (argus : Arguments)
    (csr_val2 : Option (List T)) (s : AmgSetupState T) : AmgSystem T :=
  let format := argus.format
  let rebuildnumeric := argus.rebuildnumeric
  let A := s.A
  let built := A.payload
  let A1 := if rebuildnumeric then A.UpdateValuesCSR (csr_val2.getD []) else A
  let b2 := if rebuildnumeric then A1.Apply K s.e s.b2 else s.b2
  let built := if rebuildnumeric then A1.payload else built
  let blockdim : Int := if format = K.BCSR then 3 else 1
  let A2 := A1.ConvertTo format blockdim
  let rhsVec := if rebuildnumeric then b2 else s.b
  { A := A2, built := built, rhs := rhsVec.data }

/-- The calls of lines 165-206 of `testing_ruge_stueben_amg`, from
`p.SetSmoother(sm)` to `stop_rocalution()`. -/
def testing_ruge_stueben_amg_solve_calls {T : Type} (K : Kernels T)
    (argus : Arguments) (csr_val2 : Option (List T)) (s : AmgSetupState T) : List Event :=
  let A1 := if argus.rebuildnumeric then s.A.UpdateValuesCSR (csr_val2.getD []) else s.A
  let blockdim : Int := if argus.format = K.BCSR then 3 else 1
  [ .SetSmoother .p (s.levels - 1), .SetSolver .p .cgs,
    .config .p "SetSmootherPreIter", .config .p "SetSmootherPostIter",
    .config .p "SetOperatorFormat", .config .p "InitMaxIter", .config .p "Verbose",
    .config .ls "Verbose", .SetOperator .ls, .SetPreconditioner .ls .p,
    .Init .ls, .Build .ls ]
    ++ (if argus.rebuildnumeric then
          [ .UpdateValuesCSR, .delete_array .csr_val2,
            Event.ofApply A1 .e s.e .b2 s.b2, .ReBuildNumeric .ls ]
        else [])
    ++ [ .ConvertTo argus.format blockdim,
         .Solve .ls (if argus.rebuildnumeric then .b2 else .b),
         .ScaleAdd .x, .Norm .x, .Clear .ls, .stop_rocalution ]

/-- Lines 165-216 of `testing_ruge_stueben_amg`: binding of smoothers and
coarse solver, `Build`, the optional numeric rebuild, `Solve`, the verdict and
the clean-up. -/
def testing_ruge_stueben_amg_solve {T : Type} (K : Kernels T) (vt : ValueType)
    (argus : Arguments) (csr_val2 : Option (List T)) (s : AmgSetupState T) : Run :=
  let pre_iter := argus.pre_smooth
  let post_iter := argus.post_smooth
  let smoother := argus.smoother
  let format := argus.format
  let cycle := argus.cycle
  let scaling : Bool := decide (argus.ordering ≠ 0)
  let levels := s.levels
  let setup : AMGSetup :=
    { levels := levels, cycle := cycle, scaling := scaling, smoother := smoother,
      pre_iter := pre_iter, post_iter := post_iter, format := format }
  let sys := testing_ruge_stueben_amg_system K argus csr_val2 s
  let x := { s.x with data := K.AMG_Solve sys.A sys.built setup sys.rhs s.x.data }
  let x := { x with data := K.ScaleAdd x.data (-1) s.e.data }
  let nrm2 := K.Norm x.data
  let success := check_residual vt nrm2
  { trace :=
      testing_ruge_stueben_amg_solve_calls K argus csr_val2 s
        ++ delete_smoothers (levels - 1).toNat 0
        ++ [ .delete_array .smooth_array, .delete_array .sm_array ],
    outcome := .returned success }

/-- The driver `template <typename T> bool testing_ruge_stueben_amg(Arguments argus)`. -/
def testing_ruge_stueben_amg {T : Type} (K : Kernels T) (vt : ValueType)
    (argus : Arguments) : Run :=
  let a := testing_ruge_stueben_amg_adopt K argus
  let chk := assert_all [a.csr_ptr.isNone, a.csr_col.isNone, a.csr_val.isNone]
  if chk.2 = false then
    { trace := a.trace ++ chk.1, outcome := .assert_failed }
  else
    let s := testing_ruge_stueben_amg_setup K argus a.A
    let levels := s.levels
    let t0 := a.trace ++ chk.1 ++ s.trace ++ [.config .cgs "Verbose"]
    if levels - 1 < 0 then
      { trace := t0, outcome := .bad_array_new_length }
    else
      let t1 := t0 ++ [.new_array .sm_array (levels - 1),
                       .new_array .smooth_array (levels - 1)]
      let lp := testing_ruge_stueben_amg_smoothers argus.smoother (levels - 1).toNat 0
      if lp.2 then
        { trace := t1 ++ lp.1, outcome := .returned false }
      else
        let r := testing_ruge_stueben_amg_solve K vt argus a.csr_val2 s
        { trace := t1 ++ lp.1 ++ r.trace, outcome := r.outcome }

/-- The number of hierarchy levels `p.GetNumLevels()` reports in the run of
`testing_ruge_stueben_amg` on `argus`. -/
def testing_ruge_stueben_amg_levels {T : Type} (K : Kernels T) (argus : Arguments) : Int :=
  (testing_ruge_stueben_amg_setup K argus (testing_ruge_stueben_amg_adopt K argus).A).levels

/-! ## sa-amg.cpp -/

/-- Modelled from the spec: `ReadFileMTX(path)` (a file-I/O collaborator,
`ReadMatrix(path) → Operator`) populates the operator with the entries and
counts held by the file. -/
def LocalMatrix.ReadFileMTX {T : Type} (A : LocalMatrix T) (csr : Nat) (f : MtxFile T) :
    LocalMatrix T :=
  { A with format := csr, blockdim := 1, nrow := f.nrow, ncol := f.ncol, nnz := f.nnz,
           payload := some f.csr }

/-- The loop of lines 133-163 of `sa-amg.cpp`, with `n` iterations left to
run from index `i`; `p[i]` is recorded as `smooth i`.  The chain of
comparisons on `preconditioner` picks the class; every branch makes the same
calls. -/
def sa_amg_smoothers (preconditioner : String) (n i : Nat) : List Event :=
  for_events
    (fun i =>
      [ .new (.sm i), .config (.sm i) "SetRelaxation(1.3)" ]
        ++ (if preconditioner = "GS" then [.new (.smooth i)]
            else if preconditioner = "SGS" then [.new (.smooth i)]
            else if preconditioner = "ILU" then [.new (.smooth i)]
            else if preconditioner = "IC" then [.new (.smooth i)]
            else [.new (.smooth i)])
        ++ [ .SetPreconditioner (.sm i) (.smooth i), .config (.sm i) "Verbose" ])
    n i

/-- Locals of `main` of `sa-amg.cpp` after line 118. -/
structure SaAmgSetup (T : Type) where
  mat : LocalMatrix T
  x : LocalVector T
  rhs : LocalVector T
  e : LocalVector T
  levels : Int
  trace : List Event

/-- Lines 39-118 of `main` of `sa-amg.cpp` (time measurement and printing
left out): platform start, the matrix read from `argv[1]`, allocation of the
vectors, `rhs = A * 1`, the AMG settings and `BuildHierarchy`. -/
def sa_amg_setup {T : Type} (K : Kernels T) (argv : List String) : SaAmgSetup T :=
  let argc := argv.length
  let x := LocalVector.new T
  let rhs := LocalVector.new T
  let e := LocalVector.new T
  let mat := LocalMatrix.new T K.CSR
  let mat := mat.ReadFileMTX K.CSR (K.ReadFileMTX (argv.getD 1 ""))
  let x := x.Allocate K.zero "x" mat.GetN
  let rhs := rhs.Allocate K.zero "rhs" mat.GetM
  let e := e.Allocate K.zero "e" mat.GetN
  let e := e.Ones K.one
  let rhs1 := mat.Apply K e rhs
  let x := { x with data := List.replicate x.data.length K.zero }
  let mat1 := mat.MoveToAccelerator
  let x := x.MoveToAccelerator
  let rhs1 := rhs1.MoveToAccelerator
  let e1 := e.MoveToAccelerator
  let levels := K.SAAMG_GetNumLevels mat1
  { mat := mat1, x := x, rhs := rhs1, e := e1, levels := levels
    trace :=
      [.init_rocalution]
        ++ (if argc > 2 then [.config .platform "set_omp_threads_rocalution"] else [])
        ++ [ .config .platform "info_rocalution", .ReadFileMTX,
             .Allocate .x mat.GetN, .Allocate .rhs mat.GetM, .Allocate .e mat.GetN,
             .Ones .e, Event.ofApply mat .e e .rhs rhs, .Zeros .x,
             .SetOperator .ls, .config .ls "SetCouplingStrength",
             .config .ls "SetCoarsestLevel", .config .ls "SetInterpRelax",
             .config .ls "SetManualSmoothers", .config .ls "SetManualSolver",
             .config .ls "SetScaling", .config .ls "SetCoarseningStrategy",
             .MoveToAccelerator .mat, .MoveToAccelerator .x, .MoveToAccelerator .rhs,
             .MoveToAccelerator .e, .MoveToAccelerator .ls,
             .BuildHierarchy .ls, .GetNumLevels .ls levels ] }

/-- The calls of lines 165-206 of `sa-amg.cpp`, from `ls.SetSmoother(sm)` to
`ls.Clear()`. -/
def sa_amg_finish_calls (levels : Int) : List Event :=
  [ .SetSmoother .ls (levels - 1), .SetSolver .ls .cgs,
    .config .ls "SetSmootherPreIter", .config .ls "SetSmootherPostIter",
    .Init .ls, .config .ls "Verbose", .Build .ls,
    .MoveToAccelerator .mat, .MoveToAccelerator .x, .MoveToAccelerator .rhs,
    .MoveToAccelerator .e, .MoveToAccelerator .ls,
    .config .mat "Info", .Solve .ls .rhs, .Clear .ls ]

/-- Lines 165-230 of `main` of `sa-amg.cpp` (time measurement and printing
left out): binding of smoothers and coarse solver, `Build`, `Solve`, the
clean-up and the error norm. -/
def sa_amg_finish (levels : Int) : List Event :=
  sa_amg_finish_calls levels
    ++ delete_smoothers (levels - 1).toNat 0
    ++ [ .delete_array .smooth_array, .delete_array .sm_array,
         .ScaleAdd .e, .Norm .e, .stop_rocalution ]

/-- The program `int main(int argc, char* argv[])` of `sa-amg.cpp`. -/
def sa_amg_main {T : Type} (K : Kernels T) (argv : List String) : Run :=
  let argc := argv.length
  if argc = 1 then { trace := [], outcome := .exit 1 }
  else
    let s := sa_amg_setup K argv
    let levels := s.levels
    let t0 := s.trace ++ [.config .cgs "Verbose"]
    if levels - 1 < 0 then
      { trace := t0, outcome := .bad_array_new_length }
    else
      let preconditioner := "Jacobi"
      { trace :=
          t0 ++ [ .new_array .sm_array (levels - 1), .new_array .smooth_array (levels - 1) ]
            ++ sa_amg_smoothers preconditioner (levels - 1).toNat 0
            ++ sa_amg_finish levels,
        outcome := .main_returned 0 }

/-- The number of hierarchy levels `ls.GetNumLevels()` reports in the run of
`sa-amg` on `argv`. -/
def sa_amg_levels {T : Type} (K : Kernels T) (argv : List String) : Int :=
  (sa_amg_setup K argv).levels

/-- Whether an event is one of the five solver lifecycle calls
`SetOperator`, `SetPreconditioner`, `Init`, `Build`, `Solve` on `solver`. -/
def Event.isLifecycleOf (solver : Obj) : Event → Bool
  | .SetOperator s => s = solver
  | .SetPreconditioner s _ => s = solver
  | .Init s => s = solver
  | .Build s => s = solver
  | .Solve s _ => s = solver
  | _ => false

/-- Whether `a` occurs in the trace strictly before the first occurrence of
`b` (and `b` does occur). -/
def occursBefore (a b : Event) : List Event → Bool
  | [] => false
  | ev :: tr =>
    if ev = b then false
    else if ev = a then decide (b ∈ tr)
    else occursBefore a b tr

/-- The calls of one iteration of the smoother loop of
`testing_ruge_stueben_amg` that does not take `return false;`. -/
def smoother_body (relax : String) (i : Nat) : List Event :=
  [ .new (.sm i), .new (.smooth i), .config (.sm i) relax,
    .SetPreconditioner (.sm i) (.smooth i), .config (.sm i) "Verbose" ]

/-- The product of a CSR matrix with `nrow` rows and a vector, over the integers. -/
def csr_spmv (p : CSRArrays Int) (nrow : Nat) (v : List Int) : List Int :=
  (List.range nrow).map (fun i =>
    let lo := (p.row_offset.getD i 0).toNat
    let hi := (p.row_offset.getD (i + 1) 0).toNat
    ((List.range (hi - lo)).map
      (fun k => p.val.getD (lo + k) 0 * v.getD (p.col.getD (lo + k) 0).toNat 0)).sum)

/-- A small concrete library over the integers, used to run the drivers.  The
generator returns the Laplacian of dimension 1, the matrix `[4]`; the matrix
file holds the same matrix; the product is the CSR product; the norm is the
sum of absolute values; the solvers are exact on the systems the drivers pose
(right-hand side `A * 1`, solution all ones); the hierarchy reports `levels`
levels. -/
def demoKernels (levels : Int) : Kernels Int :=
  { zero := 0
    one := 1
    CSR := 1
    BCSR := 3
    gen_2d_laplacian := fun _ =>
      { nrow := 1, row_offset := [0, 1], col := [0], val := [4], readable := by decide,
        nnz_val := by decide }
    spmv := fun A v =>
      match A.payload with
      | none => []
      | some p => csr_spmv p A.nrow.toNat v
    SetRandomUniform := fun n => List.replicate n 0
    ScaleAdd := fun x a y => List.zipWith (fun s t => a * s + t) x y
    Norm := fun v => .fin (Rat.ofInt ((v.map (fun t => (t.natAbs : Int))).sum))
    GetNumLevels := fun _ _ _ => levels
    BiCGStabl_Solve := fun _ _ _ rhsVec _ => List.replicate rhsVec.length 1
    AMG_Solve := fun _ _ _ rhsVec _ => List.replicate rhsVec.length 1
    ReadFileMTX := fun _ =>
      { nrow := 1, ncol := 1, nnz := 1, csr := { row_offset := [0, 1], col := [0], val := [4] } }
    SAAMG_GetNumLevels := fun _ => levels }

/-- Arguments with the given preconditioner and smoother names. -/
def demoArgs (precond smoother : String) (rebuildnumeric : Bool) : Arguments :=
  { size := 1, index := 2, pre_smooth := 1, post_smooth := 1, cycle := 0, ordering := 0,
    format := 1, precond := precond, smoother := smoother,
    rebuildnumeric := rebuildnumeric }

/-- The calls a driver makes before it allocates smoothers: platform start,
generation or reading of the matrix, residency, allocation, `Apply`, and the
settings of the hierarchy up to `GetNumLevels`. -/
def Event.inSetup : Event → Bool
  | .set_device_rocalution => true
  | .init_rocalution => true
  | .gen_2d_laplacian _ => true
  | .ReadFileMTX => true
  | .SetDataPtrCSR _ _ _ => true
  | .assert _ => true
  | .MoveToAccelerator _ => true
  | .Allocate _ _ => true
  | .Ones _ => true
  | .Zeros _ => true
  | .Apply _ _ _ _ _ _ _ => true
  | .SetRandomUniform _ => true
  | .new_array _ _ => true
  | .config _ _ => true
  | .SetOperator _ => true
  | .BuildHierarchy _ => true
  | .GetNumLevels _ _ => true
  | _ => false

/-- Whether an event is a call of `SetSolver`. -/
def Event.isSetSolver : Event → Bool
  | .SetSolver _ _ => true
  | _ => false

/-- Whether an event is a call of `SetSmoother`. -/
def Event.isSetSmoother : Event → Bool
  | .SetSmoother _ _ => true
  | _ => false

/-- The binding of smoothers and coarse solver to the hierarchy `amg` of `L`
levels, read off a trace: for each level `i < L - 1` one smoother `sm i` and
one preconditioner `smooth i` are created, and `sm i` gets `smooth i` attached
before `SetSmoother`; nothing is created for a level `i ≥ L - 1`; there is one
`SetSmoother` call, handing over `L - 1` smoothers, and one `SetSolver` call,
with the coarse-grid solver `cgs`. -/
def bindsSmoothers (amg : Obj) (L : Int) (tr : List Event) : Prop :=
  (∀ i : Nat, (i : Int) < L - 1 →
    tr.count (.new (.sm i)) = 1 ∧ tr.count (.new (.smooth i)) = 1 ∧
    occursBefore (.SetPreconditioner (.sm i) (.smooth i)) (.SetSmoother amg (L - 1)) tr
      = true) ∧
  (∀ i : Nat, L - 1 ≤ (i : Int) → Event.new (.sm i) ∉ tr ∧ Event.new (.smooth i) ∉ tr) ∧
  tr.filter Event.isSetSmoother = [.SetSmoother amg (L - 1)] ∧
  tr.filter Event.isSetSolver = [.SetSolver amg .cgs]

/-- The calls of one iteration of the smoother loop of `sa-amg.cpp`. -/
def sa_amg_body (i : Nat) : List Event :=
  [ .new (.sm i), .config (.sm i) "SetRelaxation(1.3)", .new (.smooth i),
    .SetPreconditioner (.sm i) (.smooth i), .config (.sm i) "Verbose" ]

/-- The lifecycle phase of a solver object. -/
inductive Phase where
  | unbuilt
  | built
  | cleared
  deriving DecidableEq

/-- Modelled from the spec: the part of the solver protocol
(`configure → build → solve → clear`) that the clean-up depends on.  Each
solver has a phase and, once `SetPreconditioner` was called on it, a bound
preconditioner; the library bodies of `Build` and `Clear` are not in the
sources. -/
structure Lifecycle where
  precond : Obj → Option Obj
  phase : Obj → Phase

/-- Before any call: nothing bound, nothing built. -/
def Lifecycle.init : Lifecycle :=
  { precond := fun _ => none, phase := fun _ => .unbuilt }

/-- Modelled from the spec: the effect of one call on the lifecycle.
`SetPreconditioner` binds; `Build` and `Clear` on a solver also build and
clear the preconditioner bound to it, which is how `ls.Clear()` on the outer
solver of `testing_ruge_stueben_amg` reaches the hierarchy `p`. -/
def Lifecycle.step (st : Lifecycle) : Event → Lifecycle
  | .SetPreconditioner s q =>
      { st with precond := fun o => if o = s then some q else st.precond o }
  | .Build s =>
      { st with phase := fun o =>
          if o = s ∨ st.precond s = some o then .built else st.phase o }
  | .Clear s =>
      { st with phase := fun o =>
          if o = s ∨ st.precond s = some o then .cleared else st.phase o }
  | _ => st

/-- Whether every `delete` of the trace happens while the hierarchy `amg` is
in phase `cleared`, the trace being run from lifecycle state `st`. -/
def releasesAfterClear (amg : Obj) : Lifecycle → List Event → Bool
  | _, [] => true
  | st, ev :: tr =>
    (match ev with
      | .delete _ => decide (st.phase amg = .cleared)
      | _ => true)
    && releasesAfterClear amg (st.step ev) tr

/-- Whether an event is a `new` of a single object. -/
def Event.isNew : Event → Bool
  | .new _ => true
  | _ => false

/-- Whether an event is a `delete` of a single object. -/
def Event.isDelete : Event → Bool
  | .delete _ => true
  | _ => false

/-- Every object of the trace is released as often as it is created, and
created at most once. -/
def releasedOnce (tr : List Event) : Prop :=
  ∀ o, tr.count (.delete o) = tr.count (.new o) ∧ tr.count (.new o) ≤ 1

/-- Whether an event leaves the lifecycle state as it is. -/
def Event.isInert : Event → Bool
  | .SetPreconditioner _ _ => false
  | .Build _ => false
  | .Clear _ => false
  | _ => true

/-- The precondition of `Apply(in, &out)` on a recorded call:
`in.length == A.columns`, `out.length == A.rows`, and the operator is not
empty.  Every other event passes. -/
def Event.applyOk : Event → Bool
  | .Apply m n nonEmpty _ inLen _ outLen =>
      decide (inLen = n) && decide (outLen = m) && nonEmpty
  | _ => true

/-! ## The hierarchy builder -/

/-- Modelled from the spec: one coarsening step of section 4.3 (steps 1-3:
coarse/fine partition, interpolation operator, Galerkin product
`A_coarse = R · A_fine · P`), taking the operator of a level to the operator
of the next-coarser level, together with the unknown count of an operator.
The classes `RugeStuebenAMG` and `SAAMG` are not in the sources; the strategy
they implement is a parameter. -/
structure Coarsening (Op : Type) where
  unknowns : Op → Nat
  coarsen : Op → Op

/-- Modelled from the spec: the loop of `BuildHierarchy()` (section 4.3, step
4, body not in the sources).  Starting from the finest operator it coarsens
repeatedly and stops "when the coarse Operator's unknown count falls at or
below a configured coarsest-level threshold, or when coarsening stalls (no
further reduction possible)"; on a stall the level reached is the coarsest
one.  The result lists the operators of the levels, finest first; `none`
means the bound on the number of iterations ran out. -/
def BuildHierarchy_loop {Op : Type} (C : Coarsening Op) (threshold : Nat) :
    Nat → Op → Option (List Op)
  | 0, _ => none
  | fuel + 1, A =>
    if C.unknowns A ≤ threshold then some [A]
    else if C.unknowns A ≤ C.unknowns (C.coarsen A) then some [A]
    else (BuildHierarchy_loop C threshold fuel (C.coarsen A)).map (fun ls => A :: ls)

/-- Modelled from the spec: `BuildHierarchy()` on the finest operator `A`
with the coarsest-level threshold set by `SetCoarsestLevel` (300 in
`testing_ruge_stueben_amg`, 200 in `sa-amg`). -/
def BuildHierarchy {Op : Type} (C : Coarsening Op) (threshold : Nat) (A : Op) :
    Option (List Op) :=
  BuildHierarchy_loop C threshold (C.unknowns A + 1) A

/-- A coarsening that halves the unknown count, on operators given by their
unknown count alone. -/
def halving : Coarsening Nat :=
  { unknowns := fun n => n, coarsen := fun n => n / 2 }

/-! ## complex_solver.cpp -/

/-- The iterative solver classes `complex_solver.cpp` can instantiate. -/
inductive SolverKind where
  | CG | CR | BiCGStab | GMRES | FGMRES
  deriving DecidableEq

/-- The literal `1e-4`: the double-precision number nearest to 0.0001. -/
def lit_1e_4 : ℚ := 7378697629483821 / 73786976294838206464

/-- The comparison `res > c` of IEEE arithmetic against a finite constant. -/
def Flt.gtConst (res : Flt) (c : ℚ) : Bool :=
  match res with
  | .fin q => decide (c < q)
  | .pinf => true
  | .ninf => false
  | .nan => false

/-- What `complex_solver.cpp` uses of the library beyond `Kernels`: five more
enumerators of the format enumeration, and the solve of the iterative solver
chosen at run time.  None of it is part of the sources. -/
structure SolverKernels (T : Type) extends Kernels T where
  MCSR : Nat
  COO : Nat
  ELL : Nat
  DIA : Nat
  HYB : Nat
  ILS_Solve : SolverKind → Option PrecondKind → LocalMatrix T → List T → List T → List T

/-- Lines 39-46 of `complex_solver.cpp`: `ils = NULL;` followed by five
independent `if (sName == ...) ils = new ...;` statements. -/
def complex_solver_ils (sName : String) : Option SolverKind :=
  let ils : Option SolverKind := none
  let ils := if sName = "CG" then some .CG else ils
  let ils := if sName = "CR" then some .CR else ils
  let ils := if sName = "BiCGStab" then some .BiCGStab else ils
  let ils := if sName = "GMRES" then some .GMRES else ils
  let ils := if sName = "FGMRES" then some .FGMRES else ils
  ils

/-- The `new` calls of lines 42-46, one for each comparison that holds. -/
def complex_solver_ils_trace (sName : String) : List Event :=
  (if sName = "CG" then [.new .ils] else [])
    ++ (if sName = "CR" then [.new .ils] else [])
    ++ (if sName = "BiCGStab" then [.new .ils] else [])
    ++ (if sName = "GMRES" then [.new .ils] else [])
    ++ (if sName = "FGMRES" then [.new .ils] else [])

/-- Lines 49 and 56-58 of `complex_solver.cpp`: `p = NULL;` followed by three
independent `if (pName == ...) p = new ...;` statements. -/
def complex_solver_p (pName : String) : Option PrecondKind :=
  let p : Option PrecondKind := none
  let p := if pName = "ILU" then some .ILU else p
  let p := if pName = "MCILU" then some .MultiColoredILU else p
  let p := if pName = "FSAI" then some .FSAI else p
  p

/-- The `new` calls of lines 56-58, one for each comparison that holds. -/
def complex_solver_p_trace (pName : String) : List Event :=
  (if pName = "ILU" then [.new .p] else [])
    ++ (if pName = "MCILU" then [.new .p] else [])
    ++ (if pName = "FSAI" then [.new .p] else [])

/-- Lines 67-72 of `complex_solver.cpp`: six independent
`if (mFormat == ...) mat.ConvertTo(...);` statements; the formats asked for,
in order. -/
def complex_solver_formats {T : Type} (K : SolverKernels T) (mFormat : String) : List Nat :=
  (if mFormat = "CSR" then [K.CSR] else [])
    ++ (if mFormat = "MCSR" then [K.MCSR] else [])
    ++ (if mFormat = "COO" then [K.COO] else [])
    ++ (if mFormat = "ELL" then [K.ELL] else [])
    ++ (if mFormat = "DIA" then [K.DIA] else [])
    ++ (if mFormat = "HYB" then [K.HYB] else [])

/-- Lines 60-88 of `complex_solver.cpp`, reached with a solver `kind` behind
`ils`: the optional `SetPreconditioner`, `Build`, the format conversion,
`Solve`, the error norm, and the exit through `exit(-1)` or `return 0`. -/
def complex_solver_finish {T : Type} (K : SolverKernels T) (kind : SolverKind)
    (pName mFormat : String) (mat : LocalMatrix T) (x rhs sol : LocalVector T) : Run :=
  let p := complex_solver_p pName
  let formats := complex_solver_formats K mFormat
  let mat := formats.foldl (fun m f => m.ConvertTo f 1) mat
  let x := { x with data := K.ILS_Solve kind p mat rhs.data x.data }
  let x := { x with data := K.ScaleAdd x.data (-1) sol.data }
  let nrm := K.Norm x.data
  let calls : List Event :=
    complex_solver_p_trace pName
      ++ (if p.isSome then [.SetPreconditioner .ils .p] else [])
      ++ [.Build .ils]
      ++ formats.map (fun f => .ConvertTo f 1)
      ++ [.config .mat "info", .Solve .ils .rhs, .ScaleAdd .x, .Norm .x, .Norm .x]
  if nrm.gtConst lit_1e_4 then
    { trace := calls, outcome := .exit (-1) }
  else
    { trace := calls ++ [.config .platform "stop_paralution"], outcome := .main_returned 0 }

/-- The program `int main(int argc, char* argv[])` of `complex_solver.cpp`
(printing left out).  `SUPPORT_MIC` is the build flag of lines 11-13.  Every
call `ils->...` goes through the pointer `ils`; line 51 is the first. -/
def complex_solver_main {T : Type} (K : SolverKernels T) (SUPPORT_MIC : Bool)
    (argv : List String) : Run :=
  if SUPPORT_MIC then { trace := [], outcome := .main_returned 0 }
  else
    let x := LocalVector.new T
    let rhs := LocalVector.new T
    let sol := LocalVector.new T
    let mat := LocalMatrix.new T K.CSR
    let mat := mat.MoveToAccelerator
    let x := x.MoveToAccelerator
    let rhs := rhs.MoveToAccelerator
    let sol := sol.MoveToAccelerator
    let t0 : List Event :=
      [ .config .platform "init_paralution", .MoveToAccelerator .mat, .MoveToAccelerator .x,
        .MoveToAccelerator .rhs, .MoveToAccelerator .sol ]
    match argv[1]? with
    | none => { trace := t0, outcome := .invalid_read }
    | some path =>
      let mat := mat.ReadFileMTX K.CSR (K.ReadFileMTX path)
      let x := x.Allocate K.zero "x" mat.GetM
      let rhs := rhs.Allocate K.zero "rhs" mat.GetM
      let sol := sol.Allocate K.zero "sol" mat.GetM
      let sol := sol.Ones K.one
      let x := { x with data := List.replicate x.data.length K.zero }
      let rhs1 := mat.Apply K.toKernels sol rhs
      let t1 := t0 ++
        [ .ReadFileMTX, .Allocate .x mat.GetM, .Allocate .rhs mat.GetM,
          .Allocate .sol mat.GetM, .Ones .sol, .Zeros .x,
          Event.ofApply mat .sol sol .rhs rhs ]
      match argv[2]? with
      | none => { trace := t1, outcome := .invalid_read }
      | some sName =>
        let ils := complex_solver_ils sName
        let t2 := t1 ++ complex_solver_ils_trace sName
        match ils with
        | none => { trace := t2 ++ [.SetOperator .ils], outcome := .null_dereference }
        | some kind =>
          let t3 := t2 ++ [.SetOperator .ils, .Init .ils]
          match argv[3]? with
          | none => { trace := t3, outcome := .invalid_read }
          | some pName =>
            match argv[4]? with
            | none =>
              let p := complex_solver_p pName
              { trace := t3 ++ complex_solver_p_trace pName
                  ++ (if p.isSome then [.SetPreconditioner .ils .p] else [])
                  ++ [.Build .ils],
                outcome := .invalid_read }
            | some mFormat =>
              let r := complex_solver_finish K kind pName mFormat mat x rhs1 sol
              { trace := t3 ++ r.trace, outcome := r.outcome }

/-- The demo library with the further enumerators and an exact solve. -/
def demoSolverKernels : SolverKernels Int :=
  { demoKernels 1 with
    MCSR := 2
    COO := 4
    ELL := 6
    DIA := 5
    HYB := 7
    ILS_Solve := fun _ _ _ rhsVec _ => List.replicate rhsVec.length 1 }

/-! ## Residency -/

/-- Modelled from the spec: the storage of an Operator or a Vector across the
two backends (section 4.1; the bodies of `MoveToAccelerator` and `MoveToHost`
are not in the sources).  `P` is what the object holds: the counts and arrays
of an operator, the value buffer of a vector.  Each backend holds a copy or
nothing, and `onAccel` is the residency tag; an empty (unallocated) object
holds nothing on either side. -/
structure Resident (P : Type) where
  host : Option P
  accel : Option P
  onAccel : Bool

/-- Modelled from the spec: `MoveToAccelerator()` "copies payload to the
target backend, frees the source copy, is idempotent if already resident
there, and must be callable on an empty Operator". -/
def Resident.MoveToAccelerator {P : Type} (r : Resident P) : Resident P :=
  if r.onAccel then r else { host := none, accel := r.host, onAccel := true }

/-- Modelled from the spec: `MoveToHost()`, the mirror image of
`MoveToAccelerator()`. -/
def Resident.MoveToHost {P : Type} (r : Resident P) : Resident P :=
  if r.onAccel then { host := r.accel, accel := none, onAccel := false } else r

/-- What the object holds (counts and values), read on the backend where it
resides; `none` for an empty object. -/
def Resident.payload {P : Type} (r : Resident P) : Option P :=
  if r.onAccel then r.accel else r.host

/-- An empty (unallocated) object on the host. -/
def Resident.empty (P : Type) : Resident P :=
  { host := none, accel := none, onAccel := false }

/-- Modelled from the spec: `MoveToHost()` on the operator as the drivers see
it changes residency only. -/
def LocalMatrix.MoveToHost {T : Type} (A : LocalMatrix T) : LocalMatrix T :=
  { A with accel := false }

/-- Modelled from the spec: `MoveToHost()` on the vector as the drivers see it
changes residency only. -/
def LocalVector.MoveToHost {T : Type} (v : LocalVector T) : LocalVector T :=
  { v with accel := false }

/-- The two-backend storage of an operator as the drivers see it: counts and
arrays sit on the backend named by its residency tag. -/
def LocalMatrix.resident {T : Type} (A : LocalMatrix T) :
    Resident (Int × Int × Int × CSRArrays T) :=
  let held := A.payload.map (fun p => (A.nrow, A.ncol, A.nnz, p))
  if A.accel then { host := none, accel := held, onAccel := true }
  else { host := held, accel := none, onAccel := false }

/-- The two-backend storage of a vector as the drivers see it; a vector of
length 0 is unallocated. -/
def LocalVector.resident {T : Type} (v : LocalVector T) : Resident (List T) :=
  let held := match v.data with
    | [] => none
    | d :: ds => some (d :: ds)
  if v.accel then { host := none, accel := held, onAccel := true }
  else { host := held, accel := none, onAccel := false }

/-! ## Iteration control -/

/-- The four arguments of `Init(abs_tol, rel_tol, div_tol, max_iter)`.
Residual norms and tolerances are taken as exact rationals. -/
structure Tolerances where
  abs_tol : ℚ
  rel_tol : ℚ
  div_tol : ℚ
  max_iter : Nat

/-- The literal `1e-8`: the double-precision number nearest to 0.00000001. -/
def lit_1e_8 : ℚ := 3022314549036573 / 302231454903657293676544

/-- The call `ls.Init(1e-8, 0.0, 1e+8, 10000)` of `testing_bicgstabl` (line
118) and of `testing_ruge_stueben_amg` (line 177). -/
def driver_tolerances : Tolerances :=
  { abs_tol := lit_1e_8, rel_tol := 0, div_tol := 100000000, max_iter := 10000 }

/-- How a solve ends: the flag reported to the caller. -/
inductive SolveStatus where
  | converged
  | diverged
  | max_iter_reached
  deriving DecidableEq

/-- Modelled from the spec: the convergence check of section 4.2 (the Krylov
solvers are not in the sources), made on the residual norm `res` after outer
step number `iter`, `r0` being the initial residual norm: "stop (success)
when residual norm ≤ max(abs_tol, rel_tol·initial_residual_norm); stop
(failure, reported not thrown) when residual norm ≥ div_tol or iteration
count ≥ max_iter".  `none` means the iteration goes on. -/
@[irreducible]
def check_convergence (t : Tolerances) (r0 res : ℚ) (iter : Nat) : Option SolveStatus :=
  if res ≤ max t.abs_tol (t.rel_tol * r0) then some .converged
  else if t.div_tol ≤ res then some .diverged
  else if t.max_iter ≤ iter then some .max_iter_reached
  else none

/-- What `Solve(rhs, &x)` hands back: the flag, the final residual norm, the
number of outer steps made, and the approximate solution. -/
structure SolveResult (X : Type) where
  status : SolveStatus
  residual : ℚ
  iterations : Nat
  x : X

/-- Modelled from the spec: the iteration of a Krylov solve, "convergence
check after every outer step".  `step` is one outer step on the solver state,
`res` the residual norm of a state; `iter` steps have been made, and `fuel`
bounds the steps still to make (`none` when it runs out). -/
def krylov_loop {X : Type} (t : Tolerances) (step : X → X) (res : X → ℚ) (r0 : ℚ) :
    Nat → Nat → X → Option (SolveResult X)
  | 0, _, _ => none
  | fuel + 1, iter, x =>
    match check_convergence t r0 (res (step x)) (iter + 1) with
    | some s =>
        some { status := s, residual := res (step x), iterations := iter + 1, x := step x }
    | none => krylov_loop t step res r0 fuel (iter + 1) (step x)

/-- Modelled from the spec: `Solve` from the initial guess `x0`; the initial
residual norm is that of `x0`. -/
def krylov_solve {X : Type} (t : Tolerances) (step : X → X) (res : X → ℚ) (x0 : X) :
    Option (SolveResult X) :=
  krylov_loop t step res (res x0) (t.max_iter + 1) 0 x0

/-! ## Theorems -/

/-- C1: when the preconditioner name is none of the fourteen recognised
names, `testing_bicgstabl` returns `false`, and its trace holds no
`SetOperator`, `SetPreconditioner`, `Init`, `Build` or `Solve` on the solver. -/
theorem testing_bicgstabl_unknown_precond {T : Type} (K : Kernels T) (vt : ValueType)
    (argus : Arguments)
    (h : argus.precond ∉ ["None", "Chebyshev", "FSAI", "SPAI", "TNS", "Jacobi", "GS",
      "SGS", "ILU", "ILUT", "IC", "MCGS", "MCSGS", "MCILU"]) :
    (testing_bicgstabl K vt argus).outcome = .returned false ∧
      ∀ ev ∈ (testing_bicgstabl K vt argus).trace, ev.isLifecycleOf .ls = false := by
  simp only [List.mem_cons, List.mem_singleton, List.not_mem_nil, not_or, or_false] at h
  obtain ⟨h1, h2, h3, h4, h5, h6, h7, h8, h9, h10, h11, h12, h13, h14⟩ := h
  have hp : testing_bicgstabl_precond argus.precond = none := by
    simp [testing_bicgstabl_precond, h1, h2, h3, h4, h5, h6, h7, h8, h9, h10, h11, h12,
      h13, h14]
  constructor
  · simp [testing_bicgstabl, hp]
  · intro ev hev
    simp only [testing_bicgstabl, hp, testing_bicgstabl_setup] at hev
    simp only [List.mem_cons, List.mem_singleton, List.not_mem_nil, or_false] at hev
    rcases hev with h | h | h | h | h | h | h | h | h | h | h | h | h | h <;>
      subst h <;> rfl

/-- C1, run on the name "AMG" with the demo library. -/
theorem testing_bicgstabl_unknown_precond_witness :
    (testing_bicgstabl (demoKernels 1) .double (demoArgs "AMG" "Jacobi" false)).outcome
        = .returned false ∧
      ∀ ev ∈ (testing_bicgstabl (demoKernels 1) .double
          (demoArgs "AMG" "Jacobi" false)).trace, ev.isLifecycleOf .ls = false :=
  testing_bicgstabl_unknown_precond _ _ _ (by decide)

/-! ### Facts on loops and traces -/

theorem mem_for_events (body : Nat → List Event) (ev : Event) (n i : Nat) :
    ev ∈ for_events body n i ↔ ∃ j, i ≤ j ∧ j < i + n ∧ ev ∈ body j := by
  induction n generalizing i with
  | zero =>
    simp only [for_events, List.not_mem_nil, false_iff]
    rintro ⟨j, h1, h2, _⟩
    omega
  | succ n ih =>
    simp only [for_events, List.mem_append, ih]
    constructor
    · rintro (h | ⟨j, h1, h2, h3⟩)
      · exact ⟨i, le_refl _, by omega, h⟩
      · exact ⟨j, by omega, by omega, h3⟩
    · rintro ⟨j, h1, h2, h3⟩
      by_cases hj : j = i
      · left; rw [← hj]; exact h3
      · right; exact ⟨j, by omega, by omega, h3⟩

theorem count_for_events (body : Nat → List Event) (ev : Event) (k : Nat)
    (hk : ∀ j, j ≠ k → ev ∉ body j) (n i : Nat) :
    (for_events body n i).count ev
      = if i ≤ k ∧ k < i + n then (body k).count ev else 0 := by
  induction n generalizing i with
  | zero =>
    have : ¬ (i ≤ k ∧ k < i + 0) := by omega
    rw [if_neg this]
    rfl
  | succ n ih =>
    simp only [for_events, List.count_append, ih]
    by_cases hik : i = k
    · subst hik
      have h1 : ¬ (i + 1 ≤ i ∧ i < i + 1 + n) := by omega
      have h2 : i ≤ i ∧ i < i + (n + 1) := by omega
      simp [h1, h2]
    · have h0 : (body i).count ev = 0 := List.count_eq_zero_of_not_mem (hk i hik)
      rw [h0, Nat.zero_add]
      by_cases h : i + 1 ≤ k ∧ k < i + 1 + n
      · have h2 : i ≤ k ∧ k < i + (n + 1) := by omega
        simp [h, h2]
      · have h2 : ¬ (i ≤ k ∧ k < i + (n + 1)) := by omega
        simp [h, h2]

theorem all_for_events (P : Event → Bool) (body : Nat → List Event)
    (h : ∀ j, (body j).all P = true) (n i : Nat) :
    (for_events body n i).all P = true := by
  induction n generalizing i with
  | zero => rfl
  | succ n ih => simp only [for_events, List.all_append, h, ih, Bool.and_self]

theorem occursBefore_append (a b : Event) (hab : a ≠ b) (l1 l2 : List Event)
    (ha : a ∈ l1) (hb1 : b ∉ l1) (hb2 : b ∈ l2) :
    occursBefore a b (l1 ++ l2) = true := by
  induction l1 with
  | nil => simp at ha
  | cons ev l1 ih =>
    simp only [List.mem_cons, not_or] at hb1
    have hev : ev ≠ b := fun h => hb1.1 h.symm
    by_cases hea : ev = a
    · subst hea
      simp [occursBefore, hab, hb2]
    · have ha1 : a ∈ l1 := by
        rcases List.mem_cons.mp ha with h | h
        · exact absurd h.symm hea
        · exact h
      simp [occursBefore, hev, hea, ih ha1 hb1.2]

/-! ### Facts shared by the theorems on `testing_ruge_stueben_amg` -/

/-- With a recognised smoother name the loop runs all its iterations. -/
theorem smoothers_known (smoother : String) (h : smoother = "Jacobi" ∨ smoother = "MCGS")
    (n i : Nat) :
    ∃ relax, testing_ruge_stueben_amg_smoothers smoother n i
      = (for_events (smoother_body relax) n i, false) := by
  rcases h with h | h
  · refine ⟨"SetRelaxation(0.67)", ?_⟩
    subst h
    induction n generalizing i with
    | zero => rfl
    | succ n ih => simp [testing_ruge_stueben_amg_smoothers, for_events, smoother_body, ih]
  · refine ⟨"SetRelaxation(1.3)", ?_⟩
    subst h
    induction n generalizing i with
    | zero => rfl
    | succ n ih => simp [testing_ruge_stueben_amg_smoothers, for_events, smoother_body, ih]

/-- When the loop ends without `return false;`, it ran every iteration. -/
theorem smoothers_complete (smoother : String) (n i : Nat)
    (h : (testing_ruge_stueben_amg_smoothers smoother n i).2 = false) :
    ∃ relax, testing_ruge_stueben_amg_smoothers smoother n i
      = (for_events (smoother_body relax) n i, false) := by
  by_cases hk : smoother = "Jacobi" ∨ smoother = "MCGS"
  · exact smoothers_known smoother hk n i
  · simp only [not_or] at hk
    cases n with
    | zero => exact ⟨"", rfl⟩
    | succ n => simp [testing_ruge_stueben_amg_smoothers, hk.1, hk.2] at h

/-- After `SetDataPtrCSR` the three caller handles are null in every run. -/
theorem adopt_handles_null {T : Type} (K : Kernels T) (argus : Arguments) :
    (testing_ruge_stueben_amg_adopt K argus).csr_ptr = none ∧
    (testing_ruge_stueben_amg_adopt K argus).csr_col = none ∧
    (testing_ruge_stueben_amg_adopt K argus).csr_val = none := by
  simp [testing_ruge_stueben_amg_adopt, LocalMatrix.SetDataPtrCSR]

/-- The three assertions of lines 87-89 pass in every run. -/
theorem asserts_pass {T : Type} (K : Kernels T) (argus : Arguments) :
    assert_all [(testing_ruge_stueben_amg_adopt K argus).csr_ptr.isNone,
      (testing_ruge_stueben_amg_adopt K argus).csr_col.isNone,
      (testing_ruge_stueben_amg_adopt K argus).csr_val.isNone]
      = ([.assert true, .assert true, .assert true], true) := by
  obtain ⟨h1, h2, h3⟩ := adopt_handles_null K argus
  simp [h1, h2, h3, assert_all]

/-- Nothing before the smoother loop touches the outer solver. -/
theorem adopt_trace_no_lifecycle {T : Type} (K : Kernels T) (argus : Arguments) :
    ((testing_ruge_stueben_amg_adopt K argus).trace.all
      (fun ev => !ev.isLifecycleOf .ls)) = true := by
  simp only [testing_ruge_stueben_amg_adopt]
  split <;> rfl

/-- Nothing in lines 91-129 touches the outer solver. -/
theorem setup_trace_no_lifecycle {T : Type} (K : Kernels T) (argus : Arguments)
    (A : LocalMatrix T) :
    ((testing_ruge_stueben_amg_setup K argus A).trace.all
      (fun ev => !ev.isLifecycleOf .ls)) = true := by
  rfl

/-- With an unrecognised smoother name the loop leaves at its first iteration. -/
theorem smoothers_unknown (smoother : String) (h1 : smoother ≠ "Jacobi")
    (h2 : smoother ≠ "MCGS") (n i : Nat) :
    testing_ruge_stueben_amg_smoothers smoother (n + 1) i = ([.new (.sm i)], true) := by
  simp [testing_ruge_stueben_amg_smoothers, h1, h2]

/-- Every call of the smoother loop, however it ends, is a call of a full
iteration or the `new FixedPoint` that precedes `return false;`. -/
theorem smoothers_all (P : Event → Bool) (smoother : String)
    (hbody : ∀ relax j, (smoother_body relax j).all P = true)
    (hnew : ∀ j, P (.new (.sm j)) = true) (n i : Nat) :
    (testing_ruge_stueben_amg_smoothers smoother n i).1.all P = true := by
  induction n generalizing i with
  | zero => rfl
  | succ n ih =>
    simp only [testing_ruge_stueben_amg_smoothers]
    split
    · have hb := hbody "SetRelaxation(0.67)" i
      simp only [smoother_body] at hb
      simp only [List.all_append, ih, Bool.and_true]
      exact hb
    · split
      · have hb := hbody "SetRelaxation(1.3)" i
        simp only [smoother_body] at hb
        simp only [List.all_append, ih, Bool.and_true]
        exact hb
      · simp [hnew]

/-- The run of `testing_ruge_stueben_amg` with the three assertions resolved:
it ends at `new[]` (negative length), at `return false;` in the loop, or at
the final `return success;`. -/
theorem testing_ruge_stueben_amg_eq {T : Type} (K : Kernels T) (vt : ValueType)
    (argus : Arguments) :
    testing_ruge_stueben_amg K vt argus =
      if testing_ruge_stueben_amg_levels K argus - 1 < 0 then
        { trace := (testing_ruge_stueben_amg_adopt K argus).trace
            ++ [.assert true, .assert true, .assert true]
            ++ (testing_ruge_stueben_amg_setup K argus
                  (testing_ruge_stueben_amg_adopt K argus).A).trace
            ++ [.config .cgs "Verbose"],
          outcome := .bad_array_new_length }
      else if (testing_ruge_stueben_amg_smoothers argus.smoother
          (testing_ruge_stueben_amg_levels K argus - 1).toNat 0).2 = true then
        { trace := (testing_ruge_stueben_amg_adopt K argus).trace
            ++ [.assert true, .assert true, .assert true]
            ++ (testing_ruge_stueben_amg_setup K argus
                  (testing_ruge_stueben_amg_adopt K argus).A).trace
            ++ [.config .cgs "Verbose"]
            ++ [.new_array .sm_array (testing_ruge_stueben_amg_levels K argus - 1),
                .new_array .smooth_array (testing_ruge_stueben_amg_levels K argus - 1)]
            ++ (testing_ruge_stueben_amg_smoothers argus.smoother
                  (testing_ruge_stueben_amg_levels K argus - 1).toNat 0).1,
          outcome := .returned false }
      else
        { trace := (testing_ruge_stueben_amg_adopt K argus).trace
            ++ [.assert true, .assert true, .assert true]
            ++ (testing_ruge_stueben_amg_setup K argus
                  (testing_ruge_stueben_amg_adopt K argus).A).trace
            ++ [.config .cgs "Verbose"]
            ++ [.new_array .sm_array (testing_ruge_stueben_amg_levels K argus - 1),
                .new_array .smooth_array (testing_ruge_stueben_amg_levels K argus - 1)]
            ++ (testing_ruge_stueben_amg_smoothers argus.smoother
                  (testing_ruge_stueben_amg_levels K argus - 1).toNat 0).1
            ++ (testing_ruge_stueben_amg_solve K vt argus
                  (testing_ruge_stueben_amg_adopt K argus).csr_val2
                  (testing_ruge_stueben_amg_setup K argus
                    (testing_ruge_stueben_amg_adopt K argus).A)).trace,
          outcome := (testing_ruge_stueben_amg_solve K vt argus
                  (testing_ruge_stueben_amg_adopt K argus).csr_val2
                  (testing_ruge_stueben_amg_setup K argus
                    (testing_ruge_stueben_amg_adopt K argus).A)).outcome } := by
  simp only [testing_ruge_stueben_amg, asserts_pass, testing_ruge_stueben_amg_levels]
  simp

/-- A property of events that holds on every segment of a run of
`testing_ruge_stueben_amg` holds on its whole trace. -/
theorem testing_ruge_stueben_amg_all {T : Type} (K : Kernels T) (vt : ValueType)
    (argus : Arguments) (P : Event → Bool)
    (hadopt : (testing_ruge_stueben_amg_adopt K argus).trace.all P = true)
    (hassert : P (.assert true) = true)
    (hsetup : (testing_ruge_stueben_amg_setup K argus
      (testing_ruge_stueben_amg_adopt K argus).A).trace.all P = true)
    (hcfg : ∀ o m, P (.config o m) = true)
    (harr : ∀ o n, P (.new_array o n) = true)
    (hbody : ∀ relax j, (smoother_body relax j).all P = true)
    (hsolve : (testing_ruge_stueben_amg_solve K vt argus
      (testing_ruge_stueben_amg_adopt K argus).csr_val2
      (testing_ruge_stueben_amg_setup K argus
        (testing_ruge_stueben_amg_adopt K argus).A)).trace.all P = true) :
    (testing_ruge_stueben_amg K vt argus).trace.all P = true := by
  have hnew : ∀ j, P (.new (.sm j)) = true := by
    intro j
    have := hbody "" j
    simp only [smoother_body, List.all_cons, Bool.and_eq_true] at this
    exact this.1
  have hlp := smoothers_all P argus.smoother hbody hnew
    (testing_ruge_stueben_amg_levels K argus - 1).toNat 0
  rw [testing_ruge_stueben_amg_eq]
  split
  · simp [List.all_append, hadopt, hassert, hsetup, hcfg]
  · split
    · simp only [List.all_append, hadopt, hsetup, hlp, Bool.and_true]
      simp [hassert, hcfg, harr]
    · simp only [List.all_append, hadopt, hsetup, hlp, hsolve, Bool.and_true]
      simp [hassert, hcfg, harr]

/-- C3: `SetDataPtrCSR` takes the three generated arrays into the operator and
leaves the caller's `csr_ptr`, `csr_col`, `csr_val` null, in both testing
drivers and for every generated matrix; hence no run of
`testing_ruge_stueben_amg` ends in a failed assertion. -/
theorem SetDataPtrCSR_nulls_caller_handles {T : Type} (K : Kernels T) (vt : ValueType)
    (argus : Arguments) :
    ((testing_ruge_stueben_amg_adopt K argus).csr_ptr = none ∧
      (testing_ruge_stueben_amg_adopt K argus).csr_col = none ∧
      (testing_ruge_stueben_amg_adopt K argus).csr_val = none) ∧
    (testing_ruge_stueben_amg_adopt K argus).A.payload
      = some { row_offset := (K.gen_2d_laplacian argus.size).row_offset,
               col := (K.gen_2d_laplacian argus.size).col,
               val := (K.gen_2d_laplacian argus.size).val } ∧
    ((testing_bicgstabl_setup K argus).csr_ptr = none ∧
      (testing_bicgstabl_setup K argus).csr_col = none ∧
      (testing_bicgstabl_setup K argus).csr_val = none) ∧
    (testing_ruge_stueben_amg K vt argus).outcome ≠ .assert_failed ∧
    Event.assert false ∉ (testing_ruge_stueben_amg K vt argus).trace := by
  refine ⟨by simp [testing_ruge_stueben_amg_adopt, LocalMatrix.SetDataPtrCSR],
    by simp [testing_ruge_stueben_amg_adopt, LocalMatrix.SetDataPtrCSR],
    by simp [testing_bicgstabl_setup, LocalMatrix.SetDataPtrCSR], ?_, ?_⟩
  · rw [testing_ruge_stueben_amg_eq]
    split
    · simp
    · split
      · simp
      · simp [testing_ruge_stueben_amg_solve]
  · have h := testing_ruge_stueben_amg_all K vt argus
      (fun ev => decide (ev ≠ .assert false))
      (by simp only [testing_ruge_stueben_amg_adopt]; split <;> simp)
      (by simp)
      (by simp [testing_ruge_stueben_amg_setup, Event.ofApply])
      (by simp) (by simp) (by simp [smoother_body])
      (by
        simp only [testing_ruge_stueben_amg_solve, testing_ruge_stueben_amg_solve_calls,
          delete_smoothers, List.all_append,
          all_for_events (fun ev => decide (ev ≠ .assert false))
            (fun i => [.delete (.smooth i), .delete (.sm i)]) (by simp)]
        split <;> simp [Event.ofApply])
    rw [List.all_eq_true] at h
    intro hmem
    simpa using h _ hmem

/-- C2 (as amended): when the smoother name is neither "Jacobi" nor "MCGS" and
the hierarchy reports at least two levels, `testing_ruge_stueben_amg` returns
`false` and its trace holds neither `Build` nor `Solve` on the outer solver. -/
theorem testing_ruge_stueben_amg_unknown_smoother {T : Type} (K : Kernels T)
    (vt : ValueType) (argus : Arguments)
    (h1 : argus.smoother ≠ "Jacobi") (h2 : argus.smoother ≠ "MCGS")
    (hL : 2 ≤ testing_ruge_stueben_amg_levels K argus) :
    (testing_ruge_stueben_amg K vt argus).outcome = .returned false ∧
      ∀ ev ∈ (testing_ruge_stueben_amg K vt argus).trace,
        ev ≠ .Build .ls ∧ ∀ r, ev ≠ .Solve .ls r := by
  have hchk := asserts_pass K argus
  obtain ⟨m, hm⟩ : ∃ m : Nat, (testing_ruge_stueben_amg_levels K argus - 1).toNat = m + 1 :=
    ⟨(testing_ruge_stueben_amg_levels K argus - 1).toNat - 1, by omega⟩
  have hneg : ¬ (testing_ruge_stueben_amg_levels K argus - 1 < 0) := by omega
  simp only [testing_ruge_stueben_amg_levels] at hm hneg
  have hrun : testing_ruge_stueben_amg K vt argus =
      { trace := (testing_ruge_stueben_amg_adopt K argus).trace
          ++ [.assert true, .assert true, .assert true]
          ++ (testing_ruge_stueben_amg_setup K argus
                (testing_ruge_stueben_amg_adopt K argus).A).trace
          ++ [.config .cgs "Verbose"]
          ++ [.new_array .sm_array (testing_ruge_stueben_amg_levels K argus - 1),
              .new_array .smooth_array (testing_ruge_stueben_amg_levels K argus - 1)]
          ++ [.new (.sm 0)],
        outcome := .returned false } := by
    simp only [testing_ruge_stueben_amg, hchk, hm, smoothers_unknown _ h1 h2,
      testing_ruge_stueben_amg_levels]
    simp [hneg]
  rw [hrun]
  refine ⟨rfl, ?_⟩
  intro ev hev
  have hall : ev.isLifecycleOf .ls = false := by
    have ha := adopt_trace_no_lifecycle K argus
    have hs := setup_trace_no_lifecycle K argus (testing_ruge_stueben_amg_adopt K argus).A
    rw [List.all_eq_true] at ha hs
    simp only [List.mem_append, List.mem_cons, List.mem_singleton, List.not_mem_nil,
      or_false] at hev
    rcases hev with ((((h | h) | h) | h) | h) | h
    · simpa using ha ev h
    · rcases h with h | h | h <;> subst h <;> rfl
    · simpa using hs ev h
    · subst h; rfl
    · rcases h with h | h <;> subst h <;> rfl
    · subst h; rfl
  constructor
  · intro h; subst h; simp [Event.isLifecycleOf] at hall
  · intro r h; subst h; simp [Event.isLifecycleOf] at hall

/-- C2 (as amended), run on the smoother name "ILU" with two levels. -/
theorem testing_ruge_stueben_amg_unknown_smoother_witness :
    (testing_ruge_stueben_amg (demoKernels 2) .double
        (demoArgs "None" "ILU" false)).outcome = .returned false ∧
      ∀ ev ∈ (testing_ruge_stueben_amg (demoKernels 2) .double
          (demoArgs "None" "ILU" false)).trace,
        ev ≠ .Build .ls ∧ ∀ r, ev ≠ .Solve .ls r :=
  testing_ruge_stueben_amg_unknown_smoother _ _ _ (by decide) (by decide) (by decide)

/-- C2 (as stated) fails on a one-level hierarchy: with the unrecognised
smoother name "ILU" the loop body never runs, the outer solver is built and
solved, and the driver returns `true`. -/
theorem testing_ruge_stueben_amg_unknown_smoother_one_level :
    (demoArgs "None" "ILU" false).smoother ≠ "Jacobi" ∧
    (demoArgs "None" "ILU" false).smoother ≠ "MCGS" ∧
    testing_ruge_stueben_amg_levels (demoKernels 1) (demoArgs "None" "ILU" false) = 1 ∧
    (testing_ruge_stueben_amg (demoKernels 1) .double
        (demoArgs "None" "ILU" false)).outcome = .returned true ∧
    Event.Build .ls ∈ (testing_ruge_stueben_amg (demoKernels 1) .double
        (demoArgs "None" "ILU" false)).trace ∧
    Event.Solve .ls .b ∈ (testing_ruge_stueben_amg (demoKernels 1) .double
        (demoArgs "None" "ILU" false)).trace := by
  refine ⟨by decide, by decide, by decide, ?_, by decide, by decide⟩
  have hres : check_residual .double (.fin 0) = true := by
    simp [check_residual, check_residual_double, Flt.ltConst, lit_1e_5]
  have hnrm : (demoKernels 1).Norm ((demoKernels 1).ScaleAdd
      ((demoKernels 1).AMG_Solve
        (testing_ruge_stueben_amg_system (demoKernels 1) (demoArgs "None" "ILU" false)
          (testing_ruge_stueben_amg_adopt (demoKernels 1)
            (demoArgs "None" "ILU" false)).csr_val2
          (testing_ruge_stueben_amg_setup (demoKernels 1) (demoArgs "None" "ILU" false)
            (testing_ruge_stueben_amg_adopt (demoKernels 1)
              (demoArgs "None" "ILU" false)).A)).A
        (testing_ruge_stueben_amg_system (demoKernels 1) (demoArgs "None" "ILU" false)
          (testing_ruge_stueben_amg_adopt (demoKernels 1)
            (demoArgs "None" "ILU" false)).csr_val2
          (testing_ruge_stueben_amg_setup (demoKernels 1) (demoArgs "None" "ILU" false)
            (testing_ruge_stueben_amg_adopt (demoKernels 1)
              (demoArgs "None" "ILU" false)).A)).built
        { levels := 1, cycle := 0, scaling := false, smoother := "ILU", pre_iter := 1,
          post_iter := 1, format := 1 }
        (testing_ruge_stueben_amg_system (demoKernels 1) (demoArgs "None" "ILU" false)
          (testing_ruge_stueben_amg_adopt (demoKernels 1)
            (demoArgs "None" "ILU" false)).csr_val2
          (testing_ruge_stueben_amg_setup (demoKernels 1) (demoArgs "None" "ILU" false)
            (testing_ruge_stueben_amg_adopt (demoKernels 1)
              (demoArgs "None" "ILU" false)).A)).rhs
        (testing_ruge_stueben_amg_setup (demoKernels 1) (demoArgs "None" "ILU" false)
          (testing_ruge_stueben_amg_adopt (demoKernels 1)
            (demoArgs "None" "ILU" false)).A).x.data)
      (-1)
      (testing_ruge_stueben_amg_setup (demoKernels 1) (demoArgs "None" "ILU" false)
        (testing_ruge_stueben_amg_adopt (demoKernels 1)
          (demoArgs "None" "ILU" false)).A).e.data) = .fin 0 := by
    decide
  rw [testing_ruge_stueben_amg_eq]
  have hlev : ¬ (testing_ruge_stueben_amg_levels (demoKernels 1)
      (demoArgs "None" "ILU" false) - 1 < 0) := by decide
  have hlp : ¬ ((testing_ruge_stueben_amg_smoothers (demoArgs "None" "ILU" false).smoother
      (testing_ruge_stueben_amg_levels (demoKernels 1)
        (demoArgs "None" "ILU" false) - 1).toNat 0).2 = true) := by decide
  rw [if_neg hlev, if_neg hlp]
  show Outcome.returned (check_residual .double _) = _
  rw [show ∀ f : Flt, f = Flt.fin 0 → Outcome.returned (check_residual .double f)
    = Outcome.returned true from fun f hf => by rw [hf, hres]]
  exact hnrm

/-! ### The segments of the traces -/

theorem not_mem_of_all (P : Event → Bool) (tr : List Event) (h : tr.all P = true)
    (ev : Event) (hev : P ev = false) : ev ∉ tr := by
  intro hmem
  rw [List.all_eq_true] at h
  have := h ev hmem
  simp [hev] at this

theorem adopt_trace_inSetup {T : Type} (K : Kernels T) (argus : Arguments) :
    (testing_ruge_stueben_amg_adopt K argus).trace.all Event.inSetup = true := by
  simp only [testing_ruge_stueben_amg_adopt]
  split <;> rfl

theorem setup_trace_inSetup {T : Type} (K : Kernels T) (argus : Arguments)
    (A : LocalMatrix T) :
    (testing_ruge_stueben_amg_setup K argus A).trace.all Event.inSetup = true := by
  rfl

theorem sa_amg_setup_trace_inSetup {T : Type} (K : Kernels T) (argv : List String) :
    (sa_amg_setup K argv).trace.all Event.inSetup = true := by
  simp only [sa_amg_setup]
  split <;> rfl

theorem sa_amg_smoothers_eq (n i : Nat) :
    sa_amg_smoothers "Jacobi" n i = for_events sa_amg_body n i := by
  rfl

theorem filter_nil_of_all (P Q : Event → Bool) (tr : List Event) (h : tr.all P = true)
    (hPQ : ∀ ev, P ev = true → Q ev = false) : tr.filter Q = [] := by
  rw [List.filter_eq_nil_iff]
  intro ev hmem
  rw [List.all_eq_true] at h
  simp [hPQ ev (h ev hmem)]

/-- The binding property on a trace made of a setup segment, a smoother loop
and a closing segment. -/
theorem binds_of_segments (amg : Obj) (L : Int) (n : Nat) (hn : (n : Int) = L - 1)
    (head tail : List Event) (body : Nat → List Event)
    (hhead : head.all Event.inSetup = true)
    (hsm : ∀ i j, (body j).count (.new (.sm i)) = if i = j then 1 else 0)
    (hsmooth : ∀ i j, (body j).count (.new (.smooth i)) = if i = j then 1 else 0)
    (hpre : ∀ j, Event.SetPreconditioner (.sm j) (.smooth j) ∈ body j)
    (hbody : ∀ j, (body j).all (fun ev => !ev.isSetSmoother && !ev.isSetSolver) = true)
    (htail : ∀ o, Event.new o ∉ tail)
    (htail1 : tail.filter Event.isSetSmoother = [.SetSmoother amg (L - 1)])
    (htail2 : tail.filter Event.isSetSolver = [.SetSolver amg .cgs]) :
    bindsSmoothers amg L (head ++ for_events body n 0 ++ tail) := by
  have hloop := all_for_events _ body hbody n 0
  have hb_tail : Event.SetSmoother amg (L - 1) ∈ tail := by
    have : Event.SetSmoother amg (L - 1) ∈ tail.filter Event.isSetSmoother := by
      rw [htail1]; exact List.mem_singleton.mpr rfl
    exact (List.mem_filter.mp this).1
  have hb_head : Event.SetSmoother amg (L - 1) ∉ head := not_mem_of_all _ _ hhead _ rfl
  have hb_loop : Event.SetSmoother amg (L - 1) ∉ for_events body n 0 :=
    not_mem_of_all _ _ hloop _ rfl
  have hnot_sm : ∀ i j, j ≠ i → Event.new (.sm i) ∉ body j := by
    intro i j hji
    rw [← List.count_eq_zero, hsm]
    simp [Ne.symm hji]
  have hnot_smooth : ∀ i j, j ≠ i → Event.new (.smooth i) ∉ body j := by
    intro i j hji
    rw [← List.count_eq_zero, hsmooth]
    simp [Ne.symm hji]
  refine ⟨?_, ?_, ?_, ?_⟩
  · intro i hi
    have hin : 0 ≤ i ∧ i < 0 + n := by omega
    refine ⟨?_, ?_, ?_⟩
    · rw [List.count_append, List.count_append,
        List.count_eq_zero_of_not_mem (not_mem_of_all _ _ hhead (.new (.sm i)) rfl),
        List.count_eq_zero_of_not_mem (htail _),
        count_for_events body _ i (hnot_sm i), if_pos hin, hsm]
      simp
    · rw [List.count_append, List.count_append,
        List.count_eq_zero_of_not_mem (not_mem_of_all _ _ hhead (.new (.smooth i)) rfl),
        List.count_eq_zero_of_not_mem (htail _),
        count_for_events body _ i (hnot_smooth i), if_pos hin, hsmooth]
      simp
    · apply occursBefore_append _ _ (by simp) _ _ _ _ hb_tail
      · apply List.mem_append_right
        rw [mem_for_events]
        exact ⟨i, hin.1, hin.2, hpre i⟩
      · simp only [List.mem_append, not_or]
        exact ⟨hb_head, hb_loop⟩
  · intro i hi
    constructor
    · simp only [List.mem_append, not_or]
      refine ⟨⟨not_mem_of_all _ _ hhead _ rfl, ?_⟩, htail _⟩
      rw [mem_for_events]
      rintro ⟨j, _, hj, hmem⟩
      by_cases hji : j = i
      · omega
      · exact hnot_sm i j hji hmem
    · simp only [List.mem_append, not_or]
      refine ⟨⟨not_mem_of_all _ _ hhead _ rfl, ?_⟩, htail _⟩
      rw [mem_for_events]
      rintro ⟨j, _, hj, hmem⟩
      by_cases hji : j = i
      · omega
      · exact hnot_smooth i j hji hmem
  · rw [List.filter_append, List.filter_append,
      filter_nil_of_all _ _ head hhead (by intro ev; cases ev <;> simp [Event.inSetup, Event.isSetSmoother]),
      filter_nil_of_all _ _ _ hloop (by intro ev h; simp at h; simp [h.1]), htail1]
    rfl
  · rw [List.filter_append, List.filter_append,
      filter_nil_of_all _ _ head hhead (by intro ev; cases ev <;> simp [Event.inSetup, Event.isSetSolver]),
      filter_nil_of_all _ _ _ hloop (by intro ev h; simp at h; simp [h.2]), htail2]
    rfl

theorem smoother_body_count_sm (relax : String) (i j : Nat) :
    (smoother_body relax j).count (.new (.sm i)) = if i = j then 1 else 0 := by
  by_cases h : i = j
  · subst h; simp [smoother_body, List.count_cons]
  · have h2 : ¬ j = i := fun h3 => h h3.symm
    simp [smoother_body, List.count_cons, h, h2]

theorem smoother_body_count_smooth (relax : String) (i j : Nat) :
    (smoother_body relax j).count (.new (.smooth i)) = if i = j then 1 else 0 := by
  by_cases h : i = j
  · subst h; simp [smoother_body, List.count_cons]
  · have h2 : ¬ j = i := fun h3 => h h3.symm
    simp [smoother_body, List.count_cons, h, h2]

theorem sa_amg_body_count_sm (i j : Nat) :
    (sa_amg_body j).count (.new (.sm i)) = if i = j then 1 else 0 := by
  by_cases h : i = j
  · subst h; simp [sa_amg_body, List.count_cons]
  · have h2 : ¬ j = i := fun h3 => h h3.symm
    simp [sa_amg_body, List.count_cons, h, h2]

theorem sa_amg_body_count_smooth (i j : Nat) :
    (sa_amg_body j).count (.new (.smooth i)) = if i = j then 1 else 0 := by
  by_cases h : i = j
  · subst h; simp [sa_amg_body, List.count_cons]
  · have h2 : ¬ j = i := fun h3 => h h3.symm
    simp [sa_amg_body, List.count_cons, h, h2]

/-- The trace of a run of `testing_ruge_stueben_amg` that gets past the
smoother loop: setup, the full loop, then lines 165-216. -/
theorem testing_ruge_stueben_amg_trace_complete {T : Type} (K : Kernels T)
    (vt : ValueType) (argus : Arguments)
    (hL : ¬ (testing_ruge_stueben_amg_levels K argus - 1 < 0))
    (hlp : (testing_ruge_stueben_amg_smoothers argus.smoother
      (testing_ruge_stueben_amg_levels K argus - 1).toNat 0).2 = false) :
    ∃ relax, (testing_ruge_stueben_amg K vt argus).trace =
      ((testing_ruge_stueben_amg_adopt K argus).trace
        ++ [.assert true, .assert true, .assert true]
        ++ (testing_ruge_stueben_amg_setup K argus
              (testing_ruge_stueben_amg_adopt K argus).A).trace
        ++ [.config .cgs "Verbose"]
        ++ [.new_array .sm_array (testing_ruge_stueben_amg_levels K argus - 1),
            .new_array .smooth_array (testing_ruge_stueben_amg_levels K argus - 1)])
      ++ for_events (smoother_body relax)
          (testing_ruge_stueben_amg_levels K argus - 1).toNat 0
      ++ (testing_ruge_stueben_amg_solve K vt argus
            (testing_ruge_stueben_amg_adopt K argus).csr_val2
            (testing_ruge_stueben_amg_setup K argus
              (testing_ruge_stueben_amg_adopt K argus).A)).trace := by
  obtain ⟨relax, hrelax⟩ := smoothers_complete _ _ _ hlp
  refine ⟨relax, ?_⟩
  rw [testing_ruge_stueben_amg_eq, if_neg hL, hrelax]
  simp

theorem head_inSetup {T : Type} (K : Kernels T) (argus : Arguments) (n : Int) :
    List.all ((testing_ruge_stueben_amg_adopt K argus).trace
        ++ [.assert true, .assert true, .assert true]
        ++ (testing_ruge_stueben_amg_setup K argus
              (testing_ruge_stueben_amg_adopt K argus).A).trace
        ++ [.config .cgs "Verbose"]
        ++ [.new_array .sm_array n, .new_array .smooth_array n]) Event.inSetup
      = true := by
  simp only [List.all_append, adopt_trace_inSetup, setup_trace_inSetup]
  rfl

theorem solve_trace_no_new {T : Type} (K : Kernels T) (vt : ValueType) (argus : Arguments)
    (v : Option (List T)) (s : AmgSetupState T) (o : Obj) :
    Event.new o ∉ (testing_ruge_stueben_amg_solve K vt argus v s).trace := by
  simp only [testing_ruge_stueben_amg_solve, testing_ruge_stueben_amg_solve_calls,
    delete_smoothers, List.mem_append, mem_for_events]
  split <;> simp [Event.ofApply]

theorem delete_smoothers_all (P : Event → Bool)
    (h : ∀ o, P (.delete o) = true) (n i : Nat) : (delete_smoothers n i).all P = true := by
  apply all_for_events
  intro j
  simp [h]

theorem solve_trace_filters {T : Type} (K : Kernels T) (vt : ValueType) (argus : Arguments)
    (v : Option (List T)) (s : AmgSetupState T) :
    (testing_ruge_stueben_amg_solve K vt argus v s).trace.filter Event.isSetSmoother
      = [.SetSmoother .p (s.levels - 1)] ∧
    (testing_ruge_stueben_amg_solve K vt argus v s).trace.filter Event.isSetSolver
      = [.SetSolver .p .cgs] := by
  have h1 := filter_nil_of_all _ Event.isSetSmoother _
    (delete_smoothers_all (fun ev => !ev.isSetSmoother) (fun _ => rfl)
      (s.levels - 1).toNat 0) (by intro ev h; simpa using h)
  have h2 := filter_nil_of_all _ Event.isSetSolver _
    (delete_smoothers_all (fun ev => !ev.isSetSolver) (fun _ => rfl)
      (s.levels - 1).toNat 0) (by intro ev h; simpa using h)
  constructor
  · simp only [testing_ruge_stueben_amg_solve, testing_ruge_stueben_amg_solve_calls,
      List.filter_append, h1]
    split <;> simp [Event.ofApply, Event.isSetSmoother, List.filter]
  · simp only [testing_ruge_stueben_amg_solve, testing_ruge_stueben_amg_solve_calls,
      List.filter_append, h2]
    split <;> simp [Event.ofApply, Event.isSetSolver, List.filter]

/-- The trace of a run of `sa-amg` that gets to the smoother loop. -/
theorem sa_amg_trace_complete {T : Type} (K : Kernels T) (argv : List String)
    (hargc : argv.length ≠ 1) (hL : ¬ (sa_amg_levels K argv - 1 < 0)) :
    (sa_amg_main K argv).trace =
      ((sa_amg_setup K argv).trace ++ [.config .cgs "Verbose"]
        ++ [.new_array .sm_array (sa_amg_levels K argv - 1),
            .new_array .smooth_array (sa_amg_levels K argv - 1)])
      ++ for_events sa_amg_body (sa_amg_levels K argv - 1).toNat 0
      ++ sa_amg_finish (sa_amg_levels K argv) := by
  simp only [sa_amg_levels] at hL
  simp only [sa_amg_main, if_neg hargc, if_neg hL, sa_amg_smoothers_eq, sa_amg_levels]

theorem sa_amg_head_inSetup {T : Type} (K : Kernels T) (argv : List String) (n : Int) :
    List.all ((sa_amg_setup K argv).trace ++ [.config .cgs "Verbose"]
        ++ [.new_array .sm_array n, .new_array .smooth_array n]) Event.inSetup = true := by
  simp only [List.all_append, sa_amg_setup_trace_inSetup]
  rfl

theorem sa_amg_finish_no_new (levels : Int) (o : Obj) :
    Event.new o ∉ sa_amg_finish levels := by
  simp [sa_amg_finish, sa_amg_finish_calls, delete_smoothers, mem_for_events]

theorem sa_amg_finish_filters (levels : Int) :
    (sa_amg_finish levels).filter Event.isSetSmoother = [.SetSmoother .ls (levels - 1)] ∧
    (sa_amg_finish levels).filter Event.isSetSolver = [.SetSolver .ls .cgs] := by
  have h1 := filter_nil_of_all _ Event.isSetSmoother _
    (delete_smoothers_all (fun ev => !ev.isSetSmoother) (fun _ => rfl)
      (levels - 1).toNat 0) (by intro ev h; simpa using h)
  have h2 := filter_nil_of_all _ Event.isSetSolver _
    (delete_smoothers_all (fun ev => !ev.isSetSolver) (fun _ => rfl)
      (levels - 1).toNat 0) (by intro ev h; simpa using h)
  constructor
  · simp only [sa_amg_finish, sa_amg_finish_calls, List.filter_append, h1]
    simp [Event.isSetSmoother, List.filter]
  · simp only [sa_amg_finish, sa_amg_finish_calls, List.filter_append, h2]
    simp [Event.isSetSolver, List.filter]

/-- C4 (as amended): for a hierarchy that reports `L ≥ 1` levels, a run of
`testing_ruge_stueben_amg` whose smoother name is "Jacobi" or "MCGS" (or any
name when `L = 1`, where the name is not read), and every run of `sa-amg`
that gets past its argument check, creates one smoother and one preconditioner
for each level `0 .. L-2` and none for the coarsest level, attaches each
preconditioner to its smoother before `SetSmoother`, and calls `SetSmoother`
and `SetSolver` once each. -/
theorem drivers_bind_smoothers {T : Type} (K : Kernels T) (vt : ValueType)
    (argus : Arguments) (argv : List String) :
    (1 ≤ testing_ruge_stueben_amg_levels K argus →
      (argus.smoother = "Jacobi" ∨ argus.smoother = "MCGS" ∨
        testing_ruge_stueben_amg_levels K argus = 1) →
      bindsSmoothers .p (testing_ruge_stueben_amg_levels K argus)
        (testing_ruge_stueben_amg K vt argus).trace) ∧
    (argv.length ≠ 1 → 1 ≤ sa_amg_levels K argv →
      bindsSmoothers .ls (sa_amg_levels K argv) (sa_amg_main K argv).trace) := by
  constructor
  · intro hL hname
    have hlp : (testing_ruge_stueben_amg_smoothers argus.smoother
        (testing_ruge_stueben_amg_levels K argus - 1).toNat 0).2 = false := by
      rcases hname with h | h | h
      · obtain ⟨r0, hr0⟩ := smoothers_known argus.smoother (Or.inl h)
          (testing_ruge_stueben_amg_levels K argus - 1).toNat 0
        rw [hr0]
      · obtain ⟨r0, hr0⟩ := smoothers_known argus.smoother (Or.inr h)
          (testing_ruge_stueben_amg_levels K argus - 1).toNat 0
        rw [hr0]
      · rw [h]
        rfl
    obtain ⟨relax, htr⟩ := testing_ruge_stueben_amg_trace_complete K vt argus (by omega)
      hlp
    rw [htr]
    have hf := solve_trace_filters K vt argus (testing_ruge_stueben_amg_adopt K argus).csr_val2
      (testing_ruge_stueben_amg_setup K argus (testing_ruge_stueben_amg_adopt K argus).A)
    exact binds_of_segments .p _ _ (by omega) _ _ _ (head_inSetup K argus _)
      (smoother_body_count_sm relax) (smoother_body_count_smooth relax)
      (by intro j; simp [smoother_body]) (by intro j; rfl)
      (solve_trace_no_new K vt argus _ _) hf.1 hf.2
  · intro hargc hL2
    rw [sa_amg_trace_complete K argv hargc (by omega)]
    have hf := sa_amg_finish_filters (sa_amg_levels K argv)
    exact binds_of_segments .ls _ _ (by omega) _ _ _ (sa_amg_head_inSetup K argv _)
      sa_amg_body_count_sm sa_amg_body_count_smooth
      (by intro j; simp [sa_amg_body]) (by intro j; rfl)
      (sa_amg_finish_no_new _) hf.1 hf.2

/-- C4 (as amended), run with three levels, smoother "Jacobi" and a matrix file. -/
theorem drivers_bind_smoothers_witness :
    bindsSmoothers .p 3
      (testing_ruge_stueben_amg (demoKernels 3) .double
        (demoArgs "None" "Jacobi" false)).trace ∧
    bindsSmoothers .ls 3 (sa_amg_main (demoKernels 3) ["sa-amg", "A.mtx"]).trace :=
  ⟨(drivers_bind_smoothers (demoKernels 3) .double (demoArgs "None" "Jacobi" false)
      ["sa-amg", "A.mtx"]).1 (by decide) (by decide),
   (drivers_bind_smoothers (demoKernels 3) .double (demoArgs "None" "Jacobi" false)
      ["sa-amg", "A.mtx"]).2 (by decide) (by decide)⟩

/-- C4 (as stated) fails in `testing_ruge_stueben_amg` for an unrecognised
smoother name: with "ILU" and two levels the driver creates `sm 0`, returns
`false`, and neither attaches a preconditioner nor calls `SetSmoother` or
`SetSolver`. -/
theorem drivers_bind_smoothers_unknown_name :
    testing_ruge_stueben_amg_levels (demoKernels 2) (demoArgs "None" "ILU" false) = 2 ∧
    (testing_ruge_stueben_amg (demoKernels 2) .double
      (demoArgs "None" "ILU" false)).outcome = .returned false ∧
    (testing_ruge_stueben_amg (demoKernels 2) .double
      (demoArgs "None" "ILU" false)).trace.filter Event.isSetSolver = [] ∧
    (testing_ruge_stueben_amg (demoKernels 2) .double
      (demoArgs "None" "ILU" false)).trace.count (.new (.smooth 0)) = 0 ∧
    ¬ bindsSmoothers .p 2
      (testing_ruge_stueben_amg (demoKernels 2) .double
        (demoArgs "None" "ILU" false)).trace := by
  refine ⟨by decide, by decide, by decide, by decide, ?_⟩
  intro h
  have h4 := h.2.2.2
  revert h4
  decide

/-! ### Release of the smoothers -/

theorem solve_trace_split {T : Type} (K : Kernels T) (vt : ValueType) (argus : Arguments)
    (v : Option (List T)) (s : AmgSetupState T) :
    (testing_ruge_stueben_amg_solve K vt argus v s).trace =
      testing_ruge_stueben_amg_solve_calls K argus v s
        ++ delete_smoothers (s.levels - 1).toNat 0
        ++ [.delete_array .smooth_array, .delete_array .sm_array] := by
  rfl

theorem sa_amg_finish_split (levels : Int) :
    sa_amg_finish levels =
      sa_amg_finish_calls levels ++ delete_smoothers (levels - 1).toNat 0
        ++ [ .delete_array .smooth_array, .delete_array .sm_array,
             .ScaleAdd .e, .Norm .e, .stop_rocalution ] := by
  rfl

theorem step_inert (st : Lifecycle) (ev : Event) (h : ev.isInert = true) :
    st.step ev = st := by
  cases ev <;> first | rfl | simp [Event.isInert] at h

theorem foldl_step_inert (st : Lifecycle) (l : List Event) (h : l.all Event.isInert = true) :
    l.foldl Lifecycle.step st = st := by
  induction l generalizing st with
  | nil => rfl
  | cons ev l ih =>
    simp only [List.all_cons, Bool.and_eq_true] at h
    simp only [List.foldl_cons, step_inert st ev h.1, ih st h.2]

theorem releasesAfterClear_append (amg : Obj) (st : Lifecycle) (l1 l2 : List Event) :
    releasesAfterClear amg st (l1 ++ l2)
      = (releasesAfterClear amg st l1
          && releasesAfterClear amg (l1.foldl Lifecycle.step st) l2) := by
  induction l1 generalizing st with
  | nil => simp [releasesAfterClear]
  | cons ev l1 ih => simp [releasesAfterClear, ih, Bool.and_assoc]

theorem releasesAfterClear_no_delete (amg : Obj) (st : Lifecycle) (l : List Event)
    (h : l.all (fun ev => !ev.isDelete) = true) :
    releasesAfterClear amg st l = true := by
  induction l generalizing st with
  | nil => rfl
  | cons ev l ih =>
    simp only [List.all_cons, Bool.and_eq_true] at h
    simp only [releasesAfterClear, ih _ h.2, Bool.and_true]
    cases ev <;> first | rfl | simp [Event.isDelete] at h

theorem releasesAfterClear_cleared (amg : Obj) (st : Lifecycle) (l : List Event)
    (h : l.all Event.isInert = true) (hst : st.phase amg = .cleared) :
    releasesAfterClear amg st l = true := by
  induction l with
  | nil => rfl
  | cons ev l ih =>
    simp only [List.all_cons, Bool.and_eq_true] at h
    simp only [releasesAfterClear, step_inert st ev h.1, ih h.2, Bool.and_true]
    cases ev <;> simp [hst]

theorem obj_cases (o : Obj) :
    (∃ k, o = .sm k) ∨ (∃ k, o = .smooth k) ∨ (∀ k, o ≠ .sm k ∧ o ≠ .smooth k) := by
  cases o <;> simp

theorem count_delete_smoothers (o : Obj) (n : Nat) :
    (delete_smoothers n 0).count (.delete o)
      = if (∃ k, k < n ∧ (o = .sm k ∨ o = .smooth k)) then 1 else 0 := by
  rcases obj_cases o with ⟨k, rfl⟩ | ⟨k, rfl⟩ | h
  · rw [delete_smoothers, count_for_events _ _ k (by intro j hj; simp [Ne.symm hj])]
    by_cases hk : k < n
    · have : ∃ k', k' < n ∧ (Obj.sm k = .sm k' ∨ Obj.sm k = .smooth k') := ⟨k, hk, Or.inl rfl⟩
      simp [hk, this, List.count_cons]
    · have : ¬ ∃ k', k' < n ∧ (Obj.sm k = .sm k' ∨ Obj.sm k = .smooth k') := by
        rintro ⟨k', h1, h2⟩
        simp at h2
        omega
      simp [hk, this]
  · rw [delete_smoothers, count_for_events _ _ k (by intro j hj; simp [Ne.symm hj])]
    by_cases hk : k < n
    · have : ∃ k', k' < n ∧ (Obj.smooth k = .sm k' ∨ Obj.smooth k = .smooth k') :=
        ⟨k, hk, Or.inr rfl⟩
      simp [hk, this, List.count_cons]
    · have : ¬ ∃ k', k' < n ∧ (Obj.smooth k = .sm k' ∨ Obj.smooth k = .smooth k') := by
        rintro ⟨k', h1, h2⟩
        simp at h2
        omega
      simp [hk, this]
  · have h1 : ¬ ∃ k, k < n ∧ (o = .sm k ∨ o = .smooth k) := by
      rintro ⟨k, _, h2 | h2⟩
      · exact (h k).1 h2
      · exact (h k).2 h2
    rw [if_neg h1, List.count_eq_zero, delete_smoothers, mem_for_events]
    rintro ⟨j, _, _, hmem⟩
    simp only [List.mem_cons, Event.delete.injEq, List.mem_singleton, List.not_mem_nil,
      or_false] at hmem
    rcases hmem with h2 | h2
    · exact (h j).2 h2
    · exact (h j).1 h2

theorem count_new_loop (body : Nat → List Event)
    (hsm : ∀ i j, (body j).count (.new (.sm i)) = if i = j then 1 else 0)
    (hsmooth : ∀ i j, (body j).count (.new (.smooth i)) = if i = j then 1 else 0)
    (hnew : ∀ j o, Event.new o ∈ body j → o = .sm j ∨ o = .smooth j)
    (o : Obj) (n : Nat) :
    (for_events body n 0).count (.new o)
      = if (∃ k, k < n ∧ (o = .sm k ∨ o = .smooth k)) then 1 else 0 := by
  rcases obj_cases o with ⟨k, rfl⟩ | ⟨k, rfl⟩ | h
  · rw [count_for_events _ _ k (by
      intro j hj; rw [← List.count_eq_zero, hsm]; simp [Ne.symm hj]), hsm]
    by_cases hk : k < n
    · have : ∃ k', k' < n ∧ (Obj.sm k = .sm k' ∨ Obj.sm k = .smooth k') := ⟨k, hk, Or.inl rfl⟩
      simp [hk, this]
    · have : ¬ ∃ k', k' < n ∧ (Obj.sm k = .sm k' ∨ Obj.sm k = .smooth k') := by
        rintro ⟨k', h1, h2⟩
        simp at h2
        omega
      simp [hk, this]
  · rw [count_for_events _ _ k (by
      intro j hj; rw [← List.count_eq_zero, hsmooth]; simp [Ne.symm hj]), hsmooth]
    by_cases hk : k < n
    · have : ∃ k', k' < n ∧ (Obj.smooth k = .sm k' ∨ Obj.smooth k = .smooth k') :=
        ⟨k, hk, Or.inr rfl⟩
      simp [hk, this]
    · have : ¬ ∃ k', k' < n ∧ (Obj.smooth k = .sm k' ∨ Obj.smooth k = .smooth k') := by
        rintro ⟨k', h1, h2⟩
        simp at h2
        omega
      simp [hk, this]
  · have h1 : ¬ ∃ k, k < n ∧ (o = .sm k ∨ o = .smooth k) := by
      rintro ⟨k, _, h2 | h2⟩
      · exact (h k).1 h2
      · exact (h k).2 h2
    rw [if_neg h1, List.count_eq_zero, mem_for_events]
    rintro ⟨j, _, _, hmem⟩
    rcases hnew j o hmem with h2 | h2
    · exact (h j).1 h2
    · exact (h j).2 h2

/-- The release property on a trace made of a setup segment, a smoother loop,
the calls up to the clean-up, the release loop and a closing segment. -/
theorem released_of_segments (amg : Obj) (n : Nat) (head calls rest : List Event)
    (body : Nat → List Event)
    (hhead : head.all Event.inSetup = true)
    (hsm : ∀ i j, (body j).count (.new (.sm i)) = if i = j then 1 else 0)
    (hsmooth : ∀ i j, (body j).count (.new (.smooth i)) = if i = j then 1 else 0)
    (hnew : ∀ j o, Event.new o ∈ body j → o = .sm j ∨ o = .smooth j)
    (hdel : ∀ j, (body j).all (fun ev => !ev.isDelete) = true)
    (hcalls : calls.all (fun ev => !ev.isNew && !ev.isDelete) = true)
    (hcleared : ∀ st, (calls.foldl Lifecycle.step st).phase amg = .cleared)
    (hrest : rest.all (fun ev => !ev.isNew && !ev.isDelete && ev.isInert) = true) :
    releasedOnce (head ++ for_events body n 0 ++ (calls ++ delete_smoothers n 0 ++ rest)) ∧
    releasesAfterClear amg Lifecycle.init
      (head ++ for_events body n 0 ++ (calls ++ delete_smoothers n 0 ++ rest)) = true := by
  have hloop := all_for_events _ body hdel n 0
  have hhead_del : head.all (fun ev => !ev.isDelete) = true := by
    rw [List.all_eq_true] at hhead ⊢
    intro ev hev
    have := hhead ev hev
    cases ev <;> first | rfl | simp [Event.inSetup] at this
  have hcalls_del : calls.all (fun ev => !ev.isDelete) = true := by
    rw [List.all_eq_true] at hcalls ⊢
    intro ev hev
    have := hcalls ev hev
    simp only [Bool.and_eq_true] at this
    exact this.2
  have hcalls_new : calls.all (fun ev => !ev.isNew) = true := by
    rw [List.all_eq_true] at hcalls ⊢
    intro ev hev
    have := hcalls ev hev
    simp only [Bool.and_eq_true] at this
    exact this.1
  have hrest_del : rest.all (fun ev => !ev.isDelete) = true := by
    rw [List.all_eq_true] at hrest ⊢
    intro ev hev
    have := hrest ev hev
    simp only [Bool.and_eq_true] at this
    exact this.1.2
  have hrest_new : rest.all (fun ev => !ev.isNew) = true := by
    rw [List.all_eq_true] at hrest ⊢
    intro ev hev
    have := hrest ev hev
    simp only [Bool.and_eq_true] at this
    exact this.1.1
  have hrest_inert : rest.all Event.isInert = true := by
    rw [List.all_eq_true] at hrest ⊢
    intro ev hev
    have := hrest ev hev
    simp only [Bool.and_eq_true] at this
    exact this.2
  have hdels_new : (delete_smoothers n 0).all (fun ev => !ev.isNew) = true :=
    delete_smoothers_all _ (fun _ => rfl) n 0
  have hdels_inert : (delete_smoothers n 0).all Event.isInert = true :=
    delete_smoothers_all _ (fun _ => rfl) n 0
  constructor
  · intro o
    have c1 : (head ++ for_events body n 0 ++ (calls ++ delete_smoothers n 0 ++ rest)).count
        (.delete o) = if (∃ k, k < n ∧ (o = .sm k ∨ o = .smooth k)) then 1 else 0 := by
      simp only [List.count_append,
        List.count_eq_zero_of_not_mem (not_mem_of_all _ _ hhead_del (.delete o) rfl),
        List.count_eq_zero_of_not_mem (not_mem_of_all _ _ hloop (.delete o) rfl),
        List.count_eq_zero_of_not_mem (not_mem_of_all _ _ hcalls_del (.delete o) rfl),
        List.count_eq_zero_of_not_mem (not_mem_of_all _ _ hrest_del (.delete o) rfl),
        count_delete_smoothers]
      simp
    have c2 : (head ++ for_events body n 0 ++ (calls ++ delete_smoothers n 0 ++ rest)).count
        (.new o) = if (∃ k, k < n ∧ (o = .sm k ∨ o = .smooth k)) then 1 else 0 := by
      simp only [List.count_append,
        List.count_eq_zero_of_not_mem (not_mem_of_all _ _ hhead (.new o) rfl),
        List.count_eq_zero_of_not_mem (not_mem_of_all _ _ hcalls_new (.new o) rfl),
        List.count_eq_zero_of_not_mem (not_mem_of_all _ _ hrest_new (.new o) rfl),
        List.count_eq_zero_of_not_mem (not_mem_of_all _ _ hdels_new (.new o) rfl),
        count_new_loop body hsm hsmooth hnew]
      simp
    rw [c1, c2]
    refine ⟨rfl, ?_⟩
    split <;> omega
  · rw [releasesAfterClear_append, releasesAfterClear_append,
      releasesAfterClear_no_delete _ _ _ hhead_del,
      releasesAfterClear_no_delete _ _ _ hloop,
      releasesAfterClear_append, releasesAfterClear_append,
      releasesAfterClear_no_delete _ _ _ hcalls_del]
    simp only [Bool.true_and]
    rw [releasesAfterClear_cleared _ _ _ hdels_inert (hcleared _), Bool.true_and]
    apply releasesAfterClear_cleared _ _ _ hrest_inert
    rw [List.foldl_append, foldl_step_inert _ _ hdels_inert]
    exact hcleared _

theorem solve_calls_cleared {T : Type} (K : Kernels T) (argus : Arguments)
    (v : Option (List T)) (s : AmgSetupState T) (st : Lifecycle) :
    ((testing_ruge_stueben_amg_solve_calls K argus v s).foldl Lifecycle.step st).phase .p
      = .cleared := by
  simp only [testing_ruge_stueben_amg_solve_calls]
  split <;> simp [Lifecycle.step, Event.ofApply]

theorem solve_calls_no_new_delete {T : Type} (K : Kernels T) (argus : Arguments)
    (v : Option (List T)) (s : AmgSetupState T) :
    (testing_ruge_stueben_amg_solve_calls K argus v s).all
      (fun ev => !ev.isNew && !ev.isDelete) = true := by
  simp only [testing_ruge_stueben_amg_solve_calls]
  split <;> simp [Event.ofApply, Event.isNew, Event.isDelete]

theorem sa_amg_finish_calls_cleared (levels : Int) (st : Lifecycle) :
    ((sa_amg_finish_calls levels).foldl Lifecycle.step st).phase .ls = .cleared := by
  simp [sa_amg_finish_calls, Lifecycle.step]

/-- A run of `testing_ruge_stueben_amg` that calls `ls.Clear()` got past both
`new[]` and the smoother loop. -/
theorem reaches_cleanup {T : Type} (K : Kernels T) (vt : ValueType) (argus : Arguments)
    (h : Event.Clear .ls ∈ (testing_ruge_stueben_amg K vt argus).trace) :
    ¬ (testing_ruge_stueben_amg_levels K argus - 1 < 0) ∧
    (testing_ruge_stueben_amg_smoothers argus.smoother
      (testing_ruge_stueben_amg_levels K argus - 1).toNat 0).2 = false := by
  have hlp := smoothers_all (fun ev => decide (ev ≠ .Clear .ls)) argus.smoother
    (by intro relax j; simp [smoother_body]) (by intro j; simp)
    (testing_ruge_stueben_amg_levels K argus - 1).toNat 0
  have hhead : ∀ n, Event.Clear .ls ∉
      ((testing_ruge_stueben_amg_adopt K argus).trace
        ++ [.assert true, .assert true, .assert true]
        ++ (testing_ruge_stueben_amg_setup K argus
              (testing_ruge_stueben_amg_adopt K argus).A).trace
        ++ [.config .cgs "Verbose"]
        ++ [.new_array .sm_array n, .new_array .smooth_array n]) :=
    fun n => not_mem_of_all _ _ (head_inSetup K argus n) _ rfl
  rw [testing_ruge_stueben_amg_eq] at h
  by_cases hL : testing_ruge_stueben_amg_levels K argus - 1 < 0
  · rw [if_pos hL] at h
    exfalso
    apply hhead 0
    simp only [List.mem_append] at h ⊢
    exact Or.inl h
  · refine ⟨hL, ?_⟩
    rw [if_neg hL] at h
    by_contra hne
    have htrue : (testing_ruge_stueben_amg_smoothers argus.smoother
      (testing_ruge_stueben_amg_levels K argus - 1).toNat 0).2 = true := by
      simpa using hne
    rw [if_pos htrue] at h
    rcases List.mem_append.mp h with h1 | h1
    · exact hhead _ h1
    · exact not_mem_of_all _ _ hlp _ (by simp) h1

/-- C5: in every run of `testing_ruge_stueben_amg` and of `sa-amg` that
reaches its clean-up (the call `ls.Clear()`), each smoother `sm[i]` and each
smoother preconditioner that was created is released exactly once, and every
release happens when the hierarchy (`p`, reached through `ls.Clear()` on the
outer solver; `ls` itself in `sa-amg`) is already cleared. -/
theorem smoothers_released_after_clear {T : Type} (K : Kernels T) (vt : ValueType)
    (argus : Arguments) (argv : List String) :
    (Event.Clear .ls ∈ (testing_ruge_stueben_amg K vt argus).trace →
      releasedOnce (testing_ruge_stueben_amg K vt argus).trace ∧
      releasesAfterClear .p Lifecycle.init (testing_ruge_stueben_amg K vt argus).trace
        = true) ∧
    (Event.Clear .ls ∈ (sa_amg_main K argv).trace →
      releasedOnce (sa_amg_main K argv).trace ∧
      releasesAfterClear .ls Lifecycle.init (sa_amg_main K argv).trace = true) := by
  constructor
  · intro h1
    obtain ⟨hL, hlp⟩ := reaches_cleanup K vt argus h1
    obtain ⟨relax, htr⟩ := testing_ruge_stueben_amg_trace_complete K vt argus hL hlp
    rw [htr, solve_trace_split]
    exact released_of_segments .p _ _ _ _ _ (head_inSetup K argus _)
      (smoother_body_count_sm relax) (smoother_body_count_smooth relax)
      (by intro j o; simp [smoother_body]) (by intro j; rfl)
      (solve_calls_no_new_delete K argus _ _) (solve_calls_cleared K argus _ _) rfl
  · intro h2
    have hargc : argv.length ≠ 1 := by
      intro hc
      simp [sa_amg_main, hc] at h2
    have hL : ¬ (sa_amg_levels K argv - 1 < 0) := by
      intro hc
      simp only [sa_amg_levels] at hc
      simp only [sa_amg_main, if_neg hargc, if_pos hc] at h2
      exact not_mem_of_all _ _ (sa_amg_head_inSetup K argv 0) (.Clear .ls) rfl
        (by simp only [List.mem_append] at h2 ⊢; exact Or.inl h2)
    rw [sa_amg_trace_complete K argv hargc hL, sa_amg_finish_split]
    exact released_of_segments .ls _ _ _ _ _ (sa_amg_head_inSetup K argv _)
      sa_amg_body_count_sm sa_amg_body_count_smooth
      (by intro j o; simp [sa_amg_body]) (by intro j; rfl)
      rfl (sa_amg_finish_calls_cleared _) rfl

/-- C5, run with three levels, smoother "MCGS" and a matrix file. -/
theorem smoothers_released_after_clear_witness :
    (releasedOnce (testing_ruge_stueben_amg (demoKernels 3) .double
        (demoArgs "None" "MCGS" true)).trace ∧
      releasesAfterClear .p Lifecycle.init (testing_ruge_stueben_amg
        (demoKernels 3) .double (demoArgs "None" "MCGS" true)).trace = true) ∧
    (releasedOnce (sa_amg_main (demoKernels 3) ["sa-amg", "A.mtx"]).trace ∧
      releasesAfterClear .ls Lifecycle.init
        (sa_amg_main (demoKernels 3) ["sa-amg", "A.mtx"]).trace = true) :=
  ⟨(smoothers_released_after_clear (demoKernels 3) .double
      (demoArgs "None" "MCGS" true) ["sa-amg", "A.mtx"]).1 (by decide),
   (smoothers_released_after_clear (demoKernels 3) .double
      (demoArgs "None" "MCGS" true) ["sa-amg", "A.mtx"]).2 (by decide)⟩

/-! ### The calls of `Apply` -/

theorem bicgstabl_setup_applyOk {T : Type} (K : Kernels T) (argus : Arguments) :
    (testing_bicgstabl_setup K argus).trace.all Event.applyOk = true := by
  simp [testing_bicgstabl_setup, Event.ofApply, Event.applyOk, LocalMatrix.SetDataPtrCSR,
    LocalMatrix.MoveToAccelerator, LocalVector.MoveToAccelerator, LocalVector.Allocate,
    LocalVector.Ones, LocalMatrix.GetM, LocalMatrix.GetN, LocalMatrix.nonEmpty,
    LocalVector.GetSize, LocalVector.new, LocalMatrix.new, LocalMatrix.ConvertTo]

theorem amg_adopt_applyOk {T : Type} (K : Kernels T) (argus : Arguments) :
    (testing_ruge_stueben_amg_adopt K argus).trace.all Event.applyOk = true := by
  simp only [testing_ruge_stueben_amg_adopt]
  split <;> rfl

theorem amg_setup_applyOk {T : Type} (K : Kernels T) (argus : Arguments) :
    (testing_ruge_stueben_amg_setup K argus
      (testing_ruge_stueben_amg_adopt K argus).A).trace.all Event.applyOk = true := by
  simp [testing_ruge_stueben_amg_setup, testing_ruge_stueben_amg_adopt, Event.ofApply,
    Event.applyOk, LocalMatrix.SetDataPtrCSR,
    LocalMatrix.MoveToAccelerator, LocalVector.MoveToAccelerator, LocalVector.Allocate,
    LocalVector.Ones, LocalMatrix.GetM, LocalMatrix.GetN, LocalMatrix.nonEmpty,
    LocalVector.GetSize, LocalVector.new, LocalMatrix.new]

theorem amg_solve_applyOk {T : Type} (K : Kernels T) (vt : ValueType) (argus : Arguments) :
    (testing_ruge_stueben_amg_solve K vt argus
      (testing_ruge_stueben_amg_adopt K argus).csr_val2
      (testing_ruge_stueben_amg_setup K argus
        (testing_ruge_stueben_amg_adopt K argus).A)).trace.all Event.applyOk = true := by
  rw [solve_trace_split]
  simp only [List.all_append, delete_smoothers_all Event.applyOk (fun _ => rfl),
    testing_ruge_stueben_amg_solve_calls]
  split
  · simp [testing_ruge_stueben_amg_setup, testing_ruge_stueben_amg_adopt, Event.ofApply,
      Event.applyOk, LocalMatrix.SetDataPtrCSR, LocalMatrix.UpdateValuesCSR,
      LocalMatrix.MoveToAccelerator, LocalVector.MoveToAccelerator, LocalVector.Allocate,
      LocalVector.Ones, LocalMatrix.GetM, LocalMatrix.GetN, LocalMatrix.nonEmpty,
      LocalVector.GetSize, LocalVector.new, LocalMatrix.new]
  · rfl

theorem sa_amg_setup_applyOk {T : Type} (K : Kernels T) (argv : List String) :
    (sa_amg_setup K argv).trace.all Event.applyOk = true := by
  simp only [sa_amg_setup]
  split <;>
  simp [Event.ofApply, Event.applyOk, LocalMatrix.ReadFileMTX, LocalVector.Allocate,
    LocalVector.Ones, LocalMatrix.GetM, LocalMatrix.GetN, LocalMatrix.nonEmpty,
    LocalVector.GetSize, LocalVector.new, LocalMatrix.new]

/-- C6: every `Apply` call in a run of `testing_bicgstabl`,
`testing_ruge_stueben_amg` or `sa-amg` is made with an input vector whose
length is the operator's column count, an output vector whose length is its
row count, and a non-empty operator. -/
theorem drivers_apply_precondition {T : Type} (K : Kernels T) (vt : ValueType)
    (argus : Arguments) (argv : List String) :
    (testing_bicgstabl K vt argus).trace.all Event.applyOk = true ∧
    (testing_ruge_stueben_amg K vt argus).trace.all Event.applyOk = true ∧
    (sa_amg_main K argv).trace.all Event.applyOk = true := by
  refine ⟨?_, ?_, ?_⟩
  · simp only [testing_bicgstabl]
    split
    · exact bicgstabl_setup_applyOk K argus
    · rename_i p _
      simp only [List.all_append, bicgstabl_setup_applyOk, Bool.true_and]
      rcases p with _ | k
      · rfl
      · cases k <;> rfl
  · exact testing_ruge_stueben_amg_all K vt argus Event.applyOk (amg_adopt_applyOk K argus)
      rfl (amg_setup_applyOk K argus) (fun _ _ => rfl) (fun _ _ => rfl)
      (fun _ _ => rfl) (amg_solve_applyOk K vt argus)
  · simp only [sa_amg_main]
    split
    · rfl
    · split
      · simp only [List.all_append, sa_amg_setup_applyOk]
        rfl
      · simp only [List.all_append, sa_amg_setup_applyOk, sa_amg_smoothers_eq,
          sa_amg_finish_split, all_for_events Event.applyOk sa_amg_body (fun _ => rfl),
          delete_smoothers_all Event.applyOk (fun _ => rfl)]
        rfl

/-! ### The numeric rebuild -/

theorem copy_values_eq {T : Type} (zero : T) (src : List T) (n : Nat) (dst : List T)
    (h1 : n ≤ src.length) (h2 : n ≤ dst.length) :
    copy_values zero src n dst = src.take n ++ dst.drop n := by
  induction n with
  | zero => simp [copy_values]
  | succ n ih =>
    have ih := ih (by omega) (by omega)
    simp only [copy_values] at ih ⊢
    rw [List.range_succ, List.foldl_append, ih]
    simp only [List.foldl_cons, List.foldl_nil]
    have hlen : (src.take n).length = n := by simp; omega
    have hn : n < src.length := by omega
    have hd : n < dst.length := by omega
    have htake : src.take (n + 1) = src.take n ++ [src[n]] := by
      rw [List.take_succ, List.getElem?_eq_getElem hn]
      rfl
    rw [List.set_append_right _ _ (by omega), hlen, Nat.sub_self,
      List.drop_eq_getElem_cons hd, List.set_cons_zero, htake,
      List.getD_eq_getElem _ _ hn, List.append_assoc]
    rfl

/-- The loop of lines 79-82 leaves in `csr_val2` a copy of all `nnz` values. -/
theorem copy_values_all {T : Type} (zero : T) (src : List T) :
    copy_values zero src src.length (List.replicate src.length zero) = src := by
  rw [copy_values_eq zero src src.length _ (le_refl _) (by simp)]
  simp

theorem adopt_csr_val2 {T : Type} (K : Kernels T) (argus : Arguments)
    (h : argus.rebuildnumeric = true) :
    (testing_ruge_stueben_amg_adopt K argus).csr_val2
      = some (K.gen_2d_laplacian argus.size).val := by
  have hn := (K.gen_2d_laplacian argus.size).nnz_val
  simp only [testing_ruge_stueben_amg_adopt, h, if_true, hn, Int.toNat_ofNat,
    copy_values_all]

/-- What `UpdateValuesCSR(csr_val2)` does in the driver: the operator keeps
the values it had. -/
theorem update_values_same {T : Type} (K : Kernels T) (argus : Arguments)
    (h : argus.rebuildnumeric = true) :
    (testing_ruge_stueben_amg_setup K argus
        (testing_ruge_stueben_amg_adopt K argus).A).A.UpdateValuesCSR
        ((testing_ruge_stueben_amg_adopt K argus).csr_val2.getD [])
      = (testing_ruge_stueben_amg_setup K argus
        (testing_ruge_stueben_amg_adopt K argus).A).A := by
  rw [adopt_csr_val2 K argus h]
  have hn := (K.gen_2d_laplacian argus.size).nnz_val
  rw [List.get_eq_getElem] at hn
  simp [testing_ruge_stueben_amg_setup, testing_ruge_stueben_amg_adopt,
    LocalMatrix.UpdateValuesCSR, LocalMatrix.SetDataPtrCSR, LocalMatrix.MoveToAccelerator,
    hn]

theorem rebuild_system_eq {T : Type} (K : Kernels T) (argus : Arguments) :
    testing_ruge_stueben_amg_system K { argus with rebuildnumeric := true }
        (testing_ruge_stueben_amg_adopt K { argus with rebuildnumeric := true }).csr_val2
        (testing_ruge_stueben_amg_setup K { argus with rebuildnumeric := true }
          (testing_ruge_stueben_amg_adopt K { argus with rebuildnumeric := true }).A)
      = testing_ruge_stueben_amg_system K { argus with rebuildnumeric := false }
        (testing_ruge_stueben_amg_adopt K { argus with rebuildnumeric := false }).csr_val2
        (testing_ruge_stueben_amg_setup K { argus with rebuildnumeric := false }
          (testing_ruge_stueben_amg_adopt K { argus with rebuildnumeric := false }).A) := by
  have hu := update_values_same K { argus with rebuildnumeric := true } rfl
  simp only [testing_ruge_stueben_amg_system, hu, if_true]
  simp [testing_ruge_stueben_amg_setup, testing_ruge_stueben_amg_adopt, LocalMatrix.Apply]

/-- C8: `testing_ruge_stueben_amg` with `rebuildnumeric = true` hands `Solve`
the same operator, the same numeric solver state and the same right-hand side
as with `rebuildnumeric = false`, and returns the same verdict, for every
`Arguments` value. -/
theorem rebuildnumeric_same_verdict {T : Type} (K : Kernels T) (vt : ValueType)
    (argus : Arguments) :
    testing_ruge_stueben_amg_system K { argus with rebuildnumeric := true }
        (testing_ruge_stueben_amg_adopt K { argus with rebuildnumeric := true }).csr_val2
        (testing_ruge_stueben_amg_setup K { argus with rebuildnumeric := true }
          (testing_ruge_stueben_amg_adopt K { argus with rebuildnumeric := true }).A)
      = testing_ruge_stueben_amg_system K { argus with rebuildnumeric := false }
        (testing_ruge_stueben_amg_adopt K { argus with rebuildnumeric := false }).csr_val2
        (testing_ruge_stueben_amg_setup K { argus with rebuildnumeric := false }
          (testing_ruge_stueben_amg_adopt K { argus with rebuildnumeric := false }).A) ∧
    (testing_ruge_stueben_amg K vt { argus with rebuildnumeric := true }).outcome
      = (testing_ruge_stueben_amg K vt { argus with rebuildnumeric := false }).outcome := by
  have hsys := rebuild_system_eq K argus
  refine ⟨hsys, ?_⟩
  have hout : (testing_ruge_stueben_amg_solve K vt { argus with rebuildnumeric := true }
        (testing_ruge_stueben_amg_adopt K { argus with rebuildnumeric := true }).csr_val2
        (testing_ruge_stueben_amg_setup K { argus with rebuildnumeric := true }
          (testing_ruge_stueben_amg_adopt K { argus with rebuildnumeric := true }).A)).outcome
      = (testing_ruge_stueben_amg_solve K vt { argus with rebuildnumeric := false }
        (testing_ruge_stueben_amg_adopt K { argus with rebuildnumeric := false }).csr_val2
        (testing_ruge_stueben_amg_setup K { argus with rebuildnumeric := false }
          (testing_ruge_stueben_amg_adopt K { argus with rebuildnumeric := false }).A)).outcome := by
    simp only [testing_ruge_stueben_amg_solve, hsys]
    rfl
  have hlev : testing_ruge_stueben_amg_levels K { argus with rebuildnumeric := true }
      = testing_ruge_stueben_amg_levels K { argus with rebuildnumeric := false } := rfl
  rw [testing_ruge_stueben_amg_eq, testing_ruge_stueben_amg_eq, hlev, hout]
  split
  · rfl
  · split <;> rfl

/-! ### Termination of the hierarchy construction -/

/-- C9: for every operator, every coarsening strategy and every coarsest-level
threshold (300 and 200 among them), `BuildHierarchy()` returns a hierarchy: a
non-empty, finite list of levels that starts at the given operator and has at
most `unknowns + 1` levels, and whose coarsest level either has at most
`threshold` unknowns or is a level at which coarsening stalled (the next
coarsening step would not reduce the unknown count). -/
theorem BuildHierarchy_terminates {Op : Type} (C : Coarsening Op) (threshold : Nat)
    (A : Op) :
    ∃ levels last, BuildHierarchy C threshold A = some levels ∧
      levels.head? = some A ∧ levels.length ≤ C.unknowns A + 1 ∧
      levels.getLast? = some last ∧
      (C.unknowns last ≤ threshold ∨ C.unknowns last ≤ C.unknowns (C.coarsen last)) := by
  suffices hloop : ∀ fuel B, C.unknowns B < fuel →
      ∃ levels last, BuildHierarchy_loop C threshold fuel B = some levels ∧
        levels.head? = some B ∧ levels.length ≤ C.unknowns B + 1 ∧
        levels.getLast? = some last ∧
        (C.unknowns last ≤ threshold ∨ C.unknowns last ≤ C.unknowns (C.coarsen last)) from
    hloop (C.unknowns A + 1) A (Nat.lt_succ_self _)
  intro fuel
  induction fuel with
  | zero => intro B hB; omega
  | succ fuel ih =>
    intro B hB
    by_cases h1 : C.unknowns B ≤ threshold
    · exact ⟨[B], B, by simp [BuildHierarchy_loop, h1], rfl, by simp, rfl, Or.inl h1⟩
    · by_cases h2 : C.unknowns B ≤ C.unknowns (C.coarsen B)
      · exact ⟨[B], B, by simp [BuildHierarchy_loop, h1, h2], rfl, by simp, rfl, Or.inr h2⟩
      · obtain ⟨levels, last, hrun, hhead, hlen, hlast, hstop⟩ :=
          ih (C.coarsen B) (by omega)
        refine ⟨B :: levels, last, by simp [BuildHierarchy_loop, h1, h2, hrun], rfl,
          by simp; omega, ?_, hstop⟩
        cases levels with
        | nil => simp at hhead
        | cons B2 rest =>
          rw [List.getLast?_cons_cons]
          exact hlast

/-- A halving strategy under the threshold of `testing_ruge_stueben_amg`. -/
theorem BuildHierarchy_halving_300 :
    BuildHierarchy halving 300 2500 = some [2500, 1250, 625, 312, 156] := by decide

/-- An operator already below the threshold of `sa-amg` is its own hierarchy. -/
theorem BuildHierarchy_halving_200 : BuildHierarchy halving 200 150 = some [150] := by
  decide

/-- A strategy that never reduces the unknown count stalls at the first level. -/
theorem BuildHierarchy_stalls :
    BuildHierarchy { unknowns := fun n => n, coarsen := fun n => n } 300 2500
      = some [2500] := by decide

/-! ### The verdict of `testing_bicgstabl` -/

/-- With a recognised preconditioner name `testing_bicgstabl` returns
`check_residual(nrm2)`, where `nrm2` is the norm of `x - e` after `Solve`. -/
theorem testing_bicgstabl_verdict {T : Type} (K : Kernels T) (vt : ValueType)
    (argus : Arguments) (p : Option PrecondKind)
    (hp : testing_bicgstabl_precond argus.precond = some p) :
    (testing_bicgstabl K vt argus).outcome =
      .returned (check_residual vt (K.Norm (K.ScaleAdd
        (K.BiCGStabl_Solve (testing_bicgstabl_setup K argus).A p argus.index
          (testing_bicgstabl_setup K argus).b.data (testing_bicgstabl_setup K argus).x.data)
        (-1) (testing_bicgstabl_setup K argus).e.data))) := by
  simp [testing_bicgstabl, hp]

/-- The verdict on a finite norm is the strict comparison with the threshold
of the value type: `1e-2f` in single, `1e-5` in double precision. -/
theorem check_residual_fin (vt : ValueType) (q : ℚ) :
    check_residual vt (.fin q) = true ↔
      q < (match vt with | .float => lit_1e_2f | .double => lit_1e_5) := by
  cases vt <;> simp [check_residual, check_residual_float, check_residual_double, Flt.ltConst]

/-! ### Platform start and stop -/

theorem bicgstabl_setup_no_stop {T : Type} (K : Kernels T) (argus : Arguments) :
    Event.stop_rocalution ∉ (testing_bicgstabl_setup K argus).trace ∧
    Event.init_rocalution ∈ (testing_bicgstabl_setup K argus).trace := by
  simp [testing_bicgstabl_setup, Event.ofApply]

theorem precond_trace_no_stop (p : Option PrecondKind) :
    Event.stop_rocalution ∉ testing_bicgstabl_precond_trace p := by
  rcases p with _ | k
  · simp [testing_bicgstabl_precond_trace]
  · cases k <;> simp [testing_bicgstabl_precond_trace]

/-- On the path of `testing_bicgstabl` that reaches `return success;` the
platform is stopped once, after `ls.Clear()`. -/
theorem testing_bicgstabl_stops_on_full_path {T : Type} (K : Kernels T) (vt : ValueType)
    (argus : Arguments) (p : Option PrecondKind)
    (hp : testing_bicgstabl_precond argus.precond = some p) :
    (testing_bicgstabl K vt argus).trace.count .stop_rocalution = 1 ∧
    occursBefore (.Clear .ls) .stop_rocalution (testing_bicgstabl K vt argus).trace
      = true := by
  have hs := (bicgstabl_setup_no_stop K argus).1
  have hq := precond_trace_no_stop p
  simp only [testing_bicgstabl, hp]
  constructor
  · simp only [List.count_append, List.count_eq_zero_of_not_mem hs,
      List.count_eq_zero_of_not_mem hq]
    cases p <;> simp [List.count_cons]
  · apply occursBefore_append _ _ (by simp)
    · cases p <;> simp
    · simp only [List.mem_append, not_or]
      refine ⟨⟨⟨⟨⟨hs, hq⟩, by simp⟩, by cases p <;> simp⟩, by simp⟩, by cases p <;> simp⟩
    · simp

theorem occursBefore_in_calls (H Lp C D R C0 : List Event) (a b : Event) (hab : a ≠ b)
    (hH : b ∉ H) (hL : b ∉ Lp) (hC : C = C0 ++ [b]) (ha : a ∈ C0) (hb : b ∉ C0) :
    occursBefore a b (H ++ Lp ++ (C ++ D ++ R)) = true := by
  subst hC
  have hre : H ++ Lp ++ (C0 ++ [b] ++ D ++ R) = (H ++ Lp ++ C0) ++ ([b] ++ D ++ R) := by
    simp only [List.append_assoc]
  rw [hre]
  apply occursBefore_append _ _ hab
  · exact List.mem_append_right _ ha
  · simp only [List.mem_append, not_or]
    exact ⟨⟨hH, hL⟩, hb⟩
  · simp

/-- On the path of `testing_ruge_stueben_amg` that reaches `ls.Clear()` the
platform is stopped once, after `ls.Clear()`. -/
theorem testing_ruge_stueben_amg_stops_on_full_path {T : Type} (K : Kernels T)
    (vt : ValueType) (argus : Arguments)
    (h : Event.Clear .ls ∈ (testing_ruge_stueben_amg K vt argus).trace) :
    (testing_ruge_stueben_amg K vt argus).trace.count .stop_rocalution = 1 ∧
    occursBefore (.Clear .ls) .stop_rocalution (testing_ruge_stueben_amg K vt argus).trace
      = true := by
  obtain ⟨hL, hlp⟩ := reaches_cleanup K vt argus h
  obtain ⟨relax, htr⟩ := testing_ruge_stueben_amg_trace_complete K vt argus hL hlp
  have hhead := not_mem_of_all _ _ (head_inSetup K argus
    (testing_ruge_stueben_amg_levels K argus - 1)) .stop_rocalution rfl
  have hloop := not_mem_of_all _ _
    (all_for_events (fun ev => decide (ev ≠ .stop_rocalution)) (smoother_body relax)
      (by intro j; simp [smoother_body])
      (testing_ruge_stueben_amg_levels K argus - 1).toNat 0) .stop_rocalution (by simp)
  have hdel := not_mem_of_all _ _
    (delete_smoothers_all (fun ev => decide (ev ≠ .stop_rocalution)) (by simp)
      (testing_ruge_stueben_amg_levels K argus - 1).toNat 0) .stop_rocalution (by simp)
  rw [htr, solve_trace_split]
  constructor
  · simp only [List.count_append, List.count_eq_zero_of_not_mem hhead,
      List.count_eq_zero_of_not_mem hloop]
    rw [show (testing_ruge_stueben_amg_setup K argus
        (testing_ruge_stueben_amg_adopt K argus).A).levels
        = testing_ruge_stueben_amg_levels K argus from rfl,
      List.count_eq_zero_of_not_mem hdel]
    simp only [testing_ruge_stueben_amg_solve_calls]
    split <;> simp [List.count_cons, Event.ofApply]
  · apply occursBefore_in_calls _ _ _ _ _
      (testing_ruge_stueben_amg_solve_calls K argus
        (testing_ruge_stueben_amg_adopt K argus).csr_val2
        (testing_ruge_stueben_amg_setup K argus
          (testing_ruge_stueben_amg_adopt K argus).A)).dropLast
      _ _ (by simp) hhead hloop
    · simp only [testing_ruge_stueben_amg_solve_calls]
      split <;> simp [List.dropLast]
    · simp only [testing_ruge_stueben_amg_solve_calls]
      split <;> simp [List.dropLast]
    · simp only [testing_ruge_stueben_amg_solve_calls]
      split <;> simp [List.dropLast, Event.ofApply]

/-- C14 fails on the early returns: with the unrecognised preconditioner name
"AMG" `testing_bicgstabl` returns `false` (line 107) after `init_rocalution()`
without `stop_rocalution()` and without `ls.Clear()`; with the unrecognised
smoother name "ILU" and two levels `testing_ruge_stueben_amg` does the same
(line 159). -/
theorem early_return_skips_stop_rocalution :
    ((testing_bicgstabl (demoKernels 1) .double (demoArgs "AMG" "Jacobi" false)).outcome
        = .returned false ∧
      Event.init_rocalution ∈
        (testing_bicgstabl (demoKernels 1) .double (demoArgs "AMG" "Jacobi" false)).trace ∧
      (testing_bicgstabl (demoKernels 1) .double
        (demoArgs "AMG" "Jacobi" false)).trace.count .stop_rocalution = 0 ∧
      Event.Clear .ls ∉
        (testing_bicgstabl (demoKernels 1) .double (demoArgs "AMG" "Jacobi" false)).trace) ∧
    ((testing_ruge_stueben_amg (demoKernels 2) .double
        (demoArgs "None" "ILU" false)).outcome = .returned false ∧
      Event.init_rocalution ∈
        (testing_ruge_stueben_amg (demoKernels 2) .double
          (demoArgs "None" "ILU" false)).trace ∧
      (testing_ruge_stueben_amg (demoKernels 2) .double
        (demoArgs "None" "ILU" false)).trace.count .stop_rocalution = 0 ∧
      Event.Clear .ls ∉
        (testing_ruge_stueben_amg (demoKernels 2) .double
          (demoArgs "None" "ILU" false)).trace) := by
  refine ⟨⟨?_, ?_, ?_, ?_⟩, ⟨?_, ?_, ?_, ?_⟩⟩ <;> decide

/-! ### The solver pointer of `complex_solver.cpp` -/

/-- A name other than the five recognised ones leaves `ils` null. -/
theorem complex_solver_ils_unknown (sName : String)
    (h : sName ∉ ["CG", "CR", "BiCGStab", "GMRES", "FGMRES"]) :
    complex_solver_ils sName = none ∧ complex_solver_ils_trace sName = [] := by
  simp only [List.mem_cons, List.mem_singleton, List.not_mem_nil, not_or, or_false] at h
  obtain ⟨h1, h2, h3, h4, h5⟩ := h
  simp [complex_solver_ils, complex_solver_ils_trace, h1, h2, h3, h4, h5]

/-- With a solver name other than the five recognised ones, every run of
`complex_solver` that reads its first two arguments ends at line 51, in the
call `ils->SetOperator(mat)` made through the null pointer `ils`. -/
theorem complex_solver_unknown_solver {T : Type} (K : SolverKernels T) (argv : List String)
    (path sName : String) (h1 : argv[1]? = some path) (h2 : argv[2]? = some sName)
    (h : sName ∉ ["CG", "CR", "BiCGStab", "GMRES", "FGMRES"]) :
    (complex_solver_main K false argv).outcome = .null_dereference ∧
    (complex_solver_main K false argv).trace.getLast? = some (.SetOperator .ils) := by
  obtain ⟨hi, ht⟩ := complex_solver_ils_unknown sName h
  simp [complex_solver_main, h1, h2, hi, ht]

/-- With one of the five recognised names `ils` points to a solver. -/
theorem complex_solver_ils_known (sName : String)
    (h : sName ∈ ["CG", "CR", "BiCGStab", "GMRES", "FGMRES"]) :
    ∃ kind, complex_solver_ils sName = some kind := by
  simp only [List.mem_cons, List.mem_singleton, List.not_mem_nil, or_false] at h
  rcases h with h | h | h | h | h <;> subst h <;> exact ⟨_, rfl⟩

/-- C13 fails on the solver name "Jacobi": `complex_solver A.mtx Jacobi ILU CSR`
creates no solver, reports nothing, and ends in the call
`ils->SetOperator(mat)` of line 51, made through the null pointer `ils`. -/
theorem complex_solver_null_solver_call :
    "Jacobi" ∉ ["CG", "CR", "BiCGStab", "GMRES", "FGMRES"] ∧
    complex_solver_ils "Jacobi" = none ∧
    (complex_solver_main demoSolverKernels false
      ["complex_solver", "A.mtx", "Jacobi", "ILU", "CSR"]).outcome = .null_dereference ∧
    (complex_solver_main demoSolverKernels false
      ["complex_solver", "A.mtx", "Jacobi", "ILU", "CSR"]).trace.getLast?
        = some (.SetOperator .ils) ∧
    Event.new .ils ∉ (complex_solver_main demoSolverKernels false
      ["complex_solver", "A.mtx", "Jacobi", "ILU", "CSR"]).trace := by
  refine ⟨?_, ?_, ?_, ?_, ?_⟩ <;> decide

/-- With one of the five recognised names no run of `complex_solver` ends in
a call through a null pointer. -/
theorem complex_solver_known_solver {T : Type} (K : SolverKernels T) (mic : Bool)
    (argv : List String) (sName : String) (h2 : argv[2]? = some sName)
    (h : sName ∈ ["CG", "CR", "BiCGStab", "GMRES", "FGMRES"]) :
    (complex_solver_main K mic argv).outcome ≠ .null_dereference := by
  obtain ⟨kind, hk⟩ := complex_solver_ils_known sName h
  simp only [complex_solver_main]
  split
  · simp
  · split
    · simp
    · simp only [h2, hk]
      split
      · simp
      · split
        · simp
        · simp only [complex_solver_finish]
          split <;> simp

/-! ### Residency -/

/-- C11: for every Operator and every Vector, empty ones included,
`MoveToAccelerator()` followed by `MoveToHost()` leaves what the object holds
(counts and values) unchanged, and `MoveToAccelerator()` on an object already
resident on the accelerator changes nothing; the operators and vectors of the
drivers follow the same two-backend storage. -/
theorem MoveToAccelerator_MoveToHost_preserves {P T : Type} (r : Resident P)
    (A : LocalMatrix T) (v : LocalVector T) :
    r.MoveToAccelerator.MoveToHost.payload = r.payload ∧
    r.MoveToAccelerator.MoveToHost.onAccel = false ∧
    r.MoveToAccelerator.MoveToAccelerator = r.MoveToAccelerator ∧
    (Resident.mk r.host r.accel true).MoveToAccelerator = Resident.mk r.host r.accel true ∧
    (Resident.empty P).MoveToAccelerator.MoveToHost = Resident.empty P ∧
    A.MoveToAccelerator.resident = A.resident.MoveToAccelerator ∧
    A.MoveToHost.resident = A.resident.MoveToHost ∧
    v.MoveToAccelerator.resident = v.resident.MoveToAccelerator ∧
    v.MoveToHost.resident = v.resident.MoveToHost := by
  refine ⟨?_, ?_, ?_, rfl, rfl, ?_, ?_, ?_, ?_⟩
  · cases h : r.onAccel
    · simp [Resident.MoveToAccelerator, Resident.MoveToHost, Resident.payload, h]
    · simp [Resident.MoveToAccelerator, Resident.MoveToHost, Resident.payload, h]
  · cases h : r.onAccel
    · simp [Resident.MoveToAccelerator, Resident.MoveToHost, h]
    · simp [Resident.MoveToAccelerator, Resident.MoveToHost, h]
  · cases h : r.onAccel
    · simp [Resident.MoveToAccelerator, h]
    · simp [Resident.MoveToAccelerator, h]
  · cases h : A.accel
    · simp [LocalMatrix.resident, LocalMatrix.MoveToAccelerator, Resident.MoveToAccelerator, h]
    · simp [LocalMatrix.resident, LocalMatrix.MoveToAccelerator, Resident.MoveToAccelerator, h]
  · cases h : A.accel
    · simp [LocalMatrix.resident, LocalMatrix.MoveToHost, Resident.MoveToHost, h]
    · simp [LocalMatrix.resident, LocalMatrix.MoveToHost, Resident.MoveToHost, h]
  · cases h : v.accel
    · simp [LocalVector.resident, LocalVector.MoveToAccelerator, Resident.MoveToAccelerator, h]
    · simp [LocalVector.resident, LocalVector.MoveToAccelerator, Resident.MoveToAccelerator, h]
  · cases h : v.accel
    · simp [LocalVector.resident, LocalVector.MoveToHost, Resident.MoveToHost, h]
    · simp [LocalVector.resident, LocalVector.MoveToHost, Resident.MoveToHost, h]

/-- A vector of three values on the host comes back from the accelerator as
it was. -/
theorem Resident_round_trip_example :
    (Resident.mk (some [1, 2, 3]) none false).MoveToAccelerator
      = Resident.mk none (some [1, 2, 3]) true ∧
    (Resident.mk (some [1, 2, 3]) none false).MoveToAccelerator.MoveToHost
      = Resident.mk (some [1, 2, 3]) none false := by
  constructor <;> rfl

/-! ### Iteration control -/

theorem check_convergence_status (t : Tolerances) (r0 res : ℚ) (iter : Nat)
    (s : SolveStatus) (h : check_convergence t r0 res iter = some s) :
    (s = .converged ↔ res ≤ max t.abs_tol (t.rel_tol * r0)) ∧
    (s ≠ .converged ↔
      ¬ res ≤ max t.abs_tol (t.rel_tol * r0) ∧ (t.div_tol ≤ res ∨ t.max_iter ≤ iter)) := by
  unfold check_convergence at h
  by_cases h1 : res ≤ max t.abs_tol (t.rel_tol * r0)
  · rw [if_pos h1] at h
    have hs : s = .converged := by injection h with h; exact h.symm
    subst hs
    simp [h1]
  · rw [if_neg h1] at h
    by_cases h2 : t.div_tol ≤ res
    · rw [if_pos h2] at h
      have hs : s = .diverged := by injection h with h; exact h.symm
      subst hs
      simp [h1, h2]
    · rw [if_neg h2] at h
      by_cases h3 : t.max_iter ≤ iter
      · rw [if_pos h3] at h
        have hs : s = .max_iter_reached := by injection h with h; exact h.symm
        subst hs
        simp [h1, h3]
      · rw [if_neg h3] at h
        cases h

theorem check_convergence_none (t : Tolerances) (r0 res : ℚ) (iter : Nat)
    (h : check_convergence t r0 res iter = none) : iter < t.max_iter := by
  unfold check_convergence at h
  split_ifs at h with h1 h2 h3
  omega

theorem krylov_loop_stop {X : Type} (t : Tolerances) (step : X → X) (res : X → ℚ) (r0 : ℚ)
    (fuel iter : Nat) (x : X) (s : SolveStatus)
    (hc : check_convergence t r0 (res (step x)) (iter + 1) = some s) :
    krylov_loop t step res r0 (fuel + 1) iter x
      = some { status := s, residual := res (step x), iterations := iter + 1, x := step x } := by
  rw [krylov_loop, hc]

theorem krylov_loop_go {X : Type} (t : Tolerances) (step : X → X) (res : X → ℚ) (r0 : ℚ)
    (fuel iter : Nat) (x : X)
    (hc : check_convergence t r0 (res (step x)) (iter + 1) = none) :
    krylov_loop t step res r0 (fuel + 1) iter x
      = krylov_loop t step res r0 fuel (iter + 1) (step x) := by
  rw [krylov_loop, hc]

theorem krylov_loop_spec {X : Type} (t : Tolerances) (step : X → X) (res : X → ℚ) (r0 : ℚ)
    (fuel iter : Nat) (x : X) (hfuel : 1 ≤ fuel) (hmax : t.max_iter ≤ iter + fuel) :
    ∃ r, krylov_loop t step res r0 fuel iter x = some r ∧
      iter < r.iterations ∧ r.x = step^[r.iterations - iter] x ∧ r.residual = res r.x ∧
      check_convergence t r0 r.residual r.iterations = some r.status ∧
      ∀ k, iter < k → k < r.iterations →
        check_convergence t r0 (res (step^[k - iter] x)) k = none := by
  induction fuel generalizing iter x with
  | zero => omega
  | succ fuel ih =>
    cases hc : check_convergence t r0 (res (step x)) (iter + 1) with
    | some s =>
      refine ⟨{ status := s, residual := res (step x), iterations := iter + 1, x := step x },
        krylov_loop_stop t step res r0 fuel iter x s hc, Nat.lt_succ_self _, ?_, rfl, hc, ?_⟩
      · show step x = step^[iter + 1 - iter] x
        rw [Nat.add_sub_cancel_left]
        rfl
      · intro k h1 h2
        have h3 : k < iter + 1 := h2
        omega
    | none =>
      have hlt := check_convergence_none t r0 _ _ hc
      obtain ⟨r, hr, hit, hx, hres, hchk, hrun⟩ :=
        ih (iter + 1) (step x) (by omega) (by omega)
      refine ⟨r, by rw [krylov_loop_go t step res r0 fuel iter x hc, hr], by omega, ?_,
        hres, hchk, ?_⟩
      · rw [hx, ← Function.iterate_succ_apply]
        congr 1
        omega
      · intro k h1 h2
        by_cases hk : k = iter + 1
        · subst hk
          simpa using hc
        · have := hrun k (by omega) h2
          rw [← Function.iterate_succ_apply] at this
          rw [show k - iter = (k - (iter + 1)).succ by omega]
          exact this

/-- Under the tolerances of the drivers the success threshold is `1e-8`,
whatever the initial residual norm. -/
theorem driver_threshold (r0 : ℚ) :
    max driver_tolerances.abs_tol (driver_tolerances.rel_tol * r0) = lit_1e_8 := by
  simp only [driver_tolerances, lit_1e_8]
  rw [zero_mul]
  exact max_eq_left (by norm_num)

/-- C12: a Krylov solve returns a result (flag, residual norm, step count and
solution vector) after at most `max(max_iter, 1)` outer steps; it stops at the
first step whose check stops; the flag is success exactly when the residual
norm is `≤ max(abs_tol, rel_tol * initial residual norm)`, and a failure flag
exactly when that test fails and the residual norm is `≥ div_tol` or the step
count has reached `max_iter`; the vector returned is the last iterate, on
failure too.  Under `Init(1e-8, 0.0, 1e+8, 10000)` the success test is
residual norm `≤ 1e-8`. -/
theorem krylov_solve_stops {X : Type} (t : Tolerances) (step : X → X) (res : X → ℚ)
    (x0 : X) :
    (∃ r, krylov_solve t step res x0 = some r ∧
      1 ≤ r.iterations ∧ r.iterations ≤ max t.max_iter 1 ∧
      r.x = step^[r.iterations] x0 ∧ r.residual = res r.x ∧
      (r.status = .converged ↔ r.residual ≤ max t.abs_tol (t.rel_tol * res x0)) ∧
      (r.status ≠ .converged ↔
        ¬ r.residual ≤ max t.abs_tol (t.rel_tol * res x0) ∧
          (t.div_tol ≤ r.residual ∨ t.max_iter ≤ r.iterations)) ∧
      ∀ k, 1 ≤ k → k < r.iterations →
        check_convergence t (res x0) (res (step^[k] x0)) k = none) ∧
    (∃ r, krylov_solve driver_tolerances step res x0 = some r ∧
      r.x = step^[r.iterations] x0 ∧
      (r.status = .converged ↔ r.residual ≤ lit_1e_8)) := by
  have key : ∀ t : Tolerances, ∃ r, krylov_solve t step res x0 = some r ∧
      1 ≤ r.iterations ∧ r.iterations ≤ max t.max_iter 1 ∧
      r.x = step^[r.iterations] x0 ∧ r.residual = res r.x ∧
      (r.status = .converged ↔ r.residual ≤ max t.abs_tol (t.rel_tol * res x0)) ∧
      (r.status ≠ .converged ↔
        ¬ r.residual ≤ max t.abs_tol (t.rel_tol * res x0) ∧
          (t.div_tol ≤ r.residual ∨ t.max_iter ≤ r.iterations)) ∧
      ∀ k, 1 ≤ k → k < r.iterations →
        check_convergence t (res x0) (res (step^[k] x0)) k = none := by
    intro t
    obtain ⟨r, hr, hit, hx, hres, hchk, hrun⟩ :=
      krylov_loop_spec t step res (res x0) (t.max_iter + 1) 0 x0 (by omega) (by omega)
    obtain ⟨hconv, hfail⟩ := check_convergence_status t (res x0) _ _ _ hchk
    refine ⟨r, hr, hit, ?_, by simpa using hx, hres, hconv, hfail, ?_⟩
    · by_contra hgt
      have hk := hrun (r.iterations - 1) (by omega) (by omega)
      have := check_convergence_none t _ _ _ hk
      omega
    · intro k h1 h2
      simpa using hrun k (by omega) h2
  refine ⟨key t, ?_⟩
  obtain ⟨r, hr, _, _, hx, _, hconv, _, _⟩ := key driver_tolerances
  exact ⟨r, hr, hx, by rw [hconv, driver_threshold]⟩

/-- A solve whose residual norm halves at every step, from 1, under the
tolerances `(1/10, 0, 100, 5)`: four steps, success. -/
theorem krylov_solve_halving :
    krylov_solve { abs_tol := 1 / 10, rel_tol := 0, div_tol := 100, max_iter := 5 }
      (fun q : ℚ => q / 2) (fun q => q) 1
      = some { status := .converged, residual := 1 / 16, iterations := 4, x := 1 / 16 } := by
  have c1 : check_convergence { abs_tol := 1 / 10, rel_tol := 0, div_tol := 100, max_iter := 5 }
      1 (1 / 2) 1 = none := by
    simp only [check_convergence]; norm_num
  have c2 : check_convergence { abs_tol := 1 / 10, rel_tol := 0, div_tol := 100, max_iter := 5 }
      1 (1 / 2 / 2) 2 = none := by
    simp only [check_convergence]; norm_num
  have c3 : check_convergence { abs_tol := 1 / 10, rel_tol := 0, div_tol := 100, max_iter := 5 }
      1 (1 / 2 / 2 / 2) 3 = none := by
    simp only [check_convergence]; norm_num
  have c4 : check_convergence { abs_tol := 1 / 10, rel_tol := 0, div_tol := 100, max_iter := 5 }
      1 (1 / 2 / 2 / 2 / 2) 4 = some .converged := by
    simp only [check_convergence]; norm_num
  simp only [krylov_solve, krylov_loop, c1, c2, c3, c4]
  norm_num

/-- A solve that makes no progress, under `max_iter = 3`: three steps, then the
failure flag, with the iterate returned. -/
theorem krylov_solve_stalled :
    krylov_solve { abs_tol := 1 / 10, rel_tol := 0, div_tol := 100, max_iter := 3 }
      (fun q : ℚ => q) (fun q => q) 1
      = some { status := .max_iter_reached, residual := 1, iterations := 3, x := 1 } := by
  have c1 : check_convergence { abs_tol := 1 / 10, rel_tol := 0, div_tol := 100, max_iter := 3 }
      1 1 1 = none := by
    simp only [check_convergence]; norm_num
  have c2 : check_convergence { abs_tol := 1 / 10, rel_tol := 0, div_tol := 100, max_iter := 3 }
      1 1 2 = none := by
    simp only [check_convergence]; norm_num
  have c3 : check_convergence { abs_tol := 1 / 10, rel_tol := 0, div_tol := 100, max_iter := 3 }
      1 1 3 = some .max_iter_reached := by
    simp only [check_convergence]; norm_num
  simp only [krylov_solve, krylov_loop, c1, c2, c3]

end Rocalution
